import Mathlib

set_option maxHeartbeats 1000000
set_option maxRecDepth 10000

/-!
Shallow embedding of the 3x-ui subscription-link generation core
(`web/util/link.go` and the parallel controller implementation), together
with proofs about the claims of the specification.

Conventions of the embedding:
* Go's dynamic `any` values obtained from `json.Unmarshal` are modelled by
  the inductive `JVal`; JSON objects are association lists in document
  order, JSON numbers are restricted to the integers occurring in these
  configurations.
* The JSON texts stored in an inbound (`Settings`, `StreamSettings`) are
  represented by their parse outcome `Except String JVal`; `.error e`
  stands for a syntactically invalid document (`json.Unmarshal` returns
  the parse error and leaves the target `nil`/empty).
* A Go runtime panic (failed unchecked type assertion, out-of-range index)
  is modelled by `Option`: `none` means the encode call aborts.
* The randomness consumed by the reality branch and by credential
  generation is passed as an explicit source `Rng`.
-/

/-- JSON-shaped dynamic value: the image of Go's `any` after `json.Unmarshal`.
`null` stands both for JSON null and for the nil interface value. -/
inductive JVal where
  | null : JVal
  | bool : Bool → JVal
  | num : Int → JVal
  | str : String → JVal
  | arr : List JVal → JVal
  | obj : List (String × JVal) → JVal
deriving Repr

mutual
/-- Structural equality test for JSON values. -/
def JVal.beq : JVal → JVal → Bool
  | .null, .null => true
  | .bool a, .bool b => a == b
  | .num a, .num b => a == b
  | .str a, .str b => a == b
  | .arr a, .arr b => JVal.beqArr a b
  | .obj a, .obj b => JVal.beqObj a b
  | _, _ => false

/-- Element-wise equality test for JSON arrays. -/
def JVal.beqArr : List JVal → List JVal → Bool
  | [], [] => true
  | a :: as, b :: bs => JVal.beq a b && JVal.beqArr as bs
  | _, _ => false

/-- Field-wise equality test for JSON objects. -/
def JVal.beqObj : List (String × JVal) → List (String × JVal) → Bool
  | [], [] => true
  | (k1, v1) :: as, (k2, v2) :: bs => k1 == k2 && JVal.beq v1 v2 && JVal.beqObj as bs
  | _, _ => false
end

theorem JVal.beq_spec :
    (∀ a b : JVal, JVal.beq a b = true ↔ a = b) ∧
    (∀ a b : List (String × JVal), JVal.beqObj a b = true ↔ a = b) ∧
    (∀ a b : List JVal, JVal.beqArr a b = true ↔ a = b) := by
  refine JVal.beq.mutual_induct
    (fun a b => JVal.beq a b = true ↔ a = b)
    (fun a b => JVal.beqObj a b = true ↔ a = b)
    (fun a b => JVal.beqArr a b = true ↔ a = b)
    ?_ ?_ ?_ ?_ ?_ ?_ ?_ ?_ ?_ ?_ ?_ ?_ ?_
  · simp [JVal.beq]
  · intro a b
    simp [JVal.beq]
  · intro a b
    simp [JVal.beq]
  · intro a b
    simp [JVal.beq]
  · intro a b ih
    simpa [JVal.beq] using ih
  · intro a b ih
    simpa [JVal.beq] using ih
  · intro t x h1 h2 h3 h4 h5 h6
    cases t <;> cases x <;> simp_all [JVal.beq]
  · simp [JVal.beqArr]
  · intro a as b bs ih1 ih2
    simp [JVal.beqArr, ih1, ih2]
  · intro t x h1 h2
    cases t with
    | nil =>
      cases x with
      | nil => exact absurd rfl (fun h => h1 h rfl)
      | cons b bs => simp [JVal.beqArr]
    | cons a as =>
      cases x with
      | nil => simp [JVal.beqArr]
      | cons b bs => exact absurd rfl (fun h => h2 a as b bs h rfl)
  · simp [JVal.beqObj]
  · intro k1 v1 as k2 v2 bs ih1 ih2
    simp [JVal.beqObj, ih1, ih2]
    try tauto
  · intro t x h1 h2
    cases t with
    | nil =>
      cases x with
      | nil => exact absurd rfl (fun h => h1 h rfl)
      | cons b bs => simp [JVal.beqObj]
    | cons a as =>
      cases x with
      | nil =>
        obtain ⟨k, v⟩ := a
        simp [JVal.beqObj]
      | cons b bs =>
        obtain ⟨k1, v1⟩ := a
        obtain ⟨k2, v2⟩ := b
        exact absurd rfl (fun h => h2 k1 v1 as k2 v2 bs h rfl)

instance : DecidableEq JVal := fun a b =>
  decidable_of_iff (JVal.beq a b = true) (JVal.beq_spec.1 a b)

/-- A decoded JSON object: association list of fields in document order. -/
abbrev JObj := List (String × JVal)

/-- First-match lookup in an association list (`none` when absent). -/
def mapGet? {α : Type} : List (String × α) → String → Option α
  | [], _ => none
  | (k, v) :: rest, key => if k = key then some v else mapGet? rest key

/-- Go map indexing: a missing key yields the zero value of `any`, the nil
interface, modelled by `JVal.null`. -/
def jLookup (o : JObj) (k : String) : JVal := (mapGet? o k).getD .null

/-- Go map assignment `m[k] = v`: replace the binding in place, or append. -/
def mapSet {α : Type} : List (String × α) → String → α → List (String × α)
  | [], k, v => [(k, v)]
  | (k', v') :: rest, k, v =>
    if k' = k then (k, v) :: rest else (k', v') :: mapSet rest k v

/-- Checked type assertion `x.(string)`. -/
def JVal.asString? : JVal → Option String
  | .str s => some s
  | _ => none

/-- `s, _ := x.(string)` — defaulted assertion. -/
def JVal.asStringD (v : JVal) : String := v.asString?.getD ""

/-- Checked type assertion `x.(bool)`. -/
def JVal.asBool? : JVal → Option Bool
  | .bool b => some b
  | _ => none

/-- `b, _ := x.(bool)` — defaulted assertion. -/
def JVal.asBoolD (v : JVal) : Bool := v.asBool?.getD false

/-- Checked type assertion `x.(float64)` followed by `int(...)` (the numbers
of these configurations are integral). -/
def JVal.asInt? : JVal → Option Int
  | .num n => some n
  | _ => none

/-- Checked type assertion `x.([]any)`. -/
def JVal.asArr? : JVal → Option (List JVal)
  | .arr xs => some xs
  | _ => none

/-- `xs, _ := x.([]any)` — defaulted assertion (nil slice). -/
def JVal.asArrD (v : JVal) : List JVal := v.asArr?.getD []

/-- Checked type assertion `x.(map[string]any)`. -/
def JVal.asObj? : JVal → Option JObj
  | .obj f => some f
  | _ => none

/-- `m, _ := x.(map[string]any)` — defaulted assertion (nil map). -/
def JVal.asObjD (v : JVal) : JObj := v.asObj?.getD []

/-- `var m map[string]any; json.Unmarshal(text, &m)` with the error ignored:
a syntactically invalid document, a non-object document or JSON `null`
leave `m` nil, whose reads behave like the empty object. -/
def decodeObj : Except String JVal → JObj
  | .ok (.obj f) => f
  | _ => []

mutual
/-- `searchKey` from link.go: depth-first search for `key` as an object
field name anywhere inside a JSON-shaped tree; objects and arrays are
walked, scalars are leaves. `none` models the `(nil, false)` result. -/
def searchKey : JVal → String → Option JVal
  | .obj fields, key => searchKeyObj fields key
  | .arr xs, key => searchKeyArr xs key
  | _, _ => none

/-- Object part of `searchKey`: per field, first compare the name, then
recurse into the value. -/
def searchKeyObj : List (String × JVal) → String → Option JVal
  | [], _ => none
  | (k, v) :: rest, key =>
    if k = key then some v
    else
      match searchKey v key with
      | some r => some r
      | none => searchKeyObj rest key

/-- Array part of `searchKey`: recurse into each element in order. -/
def searchKeyArr : List JVal → String → Option JVal
  | [], _ => none
  | v :: rest, key =>
    match searchKey v key with
    | some r => some r
    | none => searchKeyArr rest key
end

/-- Case-insensitive string comparison, modelling `strings.EqualFold` on the
ASCII keys that occur in header maps. -/
def eqFold (a b : String) : Bool := a.toLower = b.toLower

/-- Body of `searchHost`: walk the header entries; a `[]any` value yields its
first element (asserted to string — a panic if it is not), a string value is
returned directly, a nil value falls through the type switch, and any other
value panics on the unchecked `v.(string)` assertion. -/
def searchHostFields : List (String × JVal) → Option String
  | [] => some ""
  | (k, v) :: rest =>
    if eqFold k "host" then
      match v with
      | .arr [] => some ""
      | .arr (h :: _) => h.asString?
      | .null => searchHostFields rest
      | .str s => some s
      | _ => none
    else searchHostFields rest

/-- `searchHost` from link.go: find a "host" header (case-insensitively) in a
headers map; a non-map argument behaves as the nil map. -/
def searchHost (headers : JVal) : Option String :=
  searchHostFields headers.asObjD

/-! ### Byte-level string encodings (base64, URL escaping, JSON rendering) -/

/-- UTF-8 encoding of one code point. -/
def utf8Char (n : Nat) : List Nat :=
  if n < 0x80 then [n]
  else if n < 0x800 then [0xC0 + n / 64, 0x80 + n % 64]
  else if n < 0x10000 then [0xE0 + n / 4096, 0x80 + (n / 64) % 64, 0x80 + n % 64]
  else [0xF0 + n / 262144, 0x80 + (n / 4096) % 64, 0x80 + (n / 64) % 64, 0x80 + n % 64]

/-- UTF-8 bytes of a string (Go strings are byte strings; source texts here
are valid UTF-8). -/
def utf8Bytes (s : String) : List Nat :=
  (s.data.map (fun c => utf8Char c.toNat)).flatten

/-- The standard base64 alphabet. -/
def b64Char (n : Nat) : Char :=
  "ABCDEFGHIJKLMNOPQRSTUVWXYZabcdefghijklmnopqrstuvwxyz0123456789+/".data.getD n 'A'

/-- `base64.StdEncoding.EncodeToString`: standard alphabet, `=` padding. -/
def base64Bytes : List Nat → String
  | [] => ""
  | [a] => String.mk [b64Char (a / 4), b64Char (a % 4 * 16), '=', '=']
  | [a, b] => String.mk [b64Char (a / 4), b64Char (a % 4 * 16 + b / 16), b64Char (b % 16 * 4), '=']
  | a :: b :: c :: rest =>
    String.mk [b64Char (a / 4), b64Char (a % 4 * 16 + b / 16), b64Char (b % 16 * 4 + c / 64),
      b64Char (c % 64)] ++ base64Bytes rest

/-- Base64 of a string's UTF-8 bytes. -/
def base64EncodeStr (s : String) : String := base64Bytes (utf8Bytes s)

/-- Uppercase hex digit. -/
def hexDigit (n : Nat) : Char := "0123456789ABCDEF".data.getD n '0'

/-- Percent-escape of one byte, uppercase hex as Go produces. -/
def pctByte (b : Nat) : String := String.mk ['%', hexDigit (b / 16), hexDigit (b % 16)]

/-- RFC 3986 unreserved bytes: alphanumerics and `-_.~`. -/
def isUnreserved (b : Nat) : Bool :=
  (48 ≤ b && b ≤ 57) || (65 ≤ b && b ≤ 90) || (97 ≤ b && b ≤ 122) ||
    b = 45 || b = 95 || b = 46 || b = 126

/-- `url.QueryEscape`: unreserved bytes kept, space becomes `+`, everything
else percent-escaped. -/
def queryEscape (s : String) : String :=
  (utf8Bytes s).foldr
    (fun b acc =>
      (if isUnreserved b then String.singleton (Char.ofNat b)
       else if b = 32 then "+" else pctByte b) ++ acc) ""

/-- Bytes Go leaves unescaped in a URL fragment: unreserved plus
the sub-delims kept by net/url for fragments. -/
def fragAllowed (b : Nat) : Bool :=
  isUnreserved b || b = 33 || b = 36 || b = 38 || b = 40 || b = 41 || b = 42 ||
    b = 43 || b = 44 || b = 47 || b = 58 || b = 59 || b = 61 || b = 63 || b = 64

/-- Escaping applied by `URL.String()` to the fragment. -/
def fragmentEscape (s : String) : String :=
  (utf8Bytes s).foldr
    (fun b acc =>
      (if fragAllowed b then String.singleton (Char.ofNat b) else pctByte b) ++ acc) ""

/-- Lexicographic comparison of byte lists. -/
def listLeNat : List Nat → List Nat → Bool
  | [], _ => true
  | _ :: _, [] => false
  | a :: as, b :: bs => if a < b then true else if b < a then false else listLeNat as bs

/-- Byte-wise string order, as Go's `sort.Strings` compares. -/
def strLe (a b : String) : Bool := listLeNat (utf8Bytes a) (utf8Bytes b)

/-- Insertion step for sorting key-value pairs by key. -/
def insertKV {α : Type} (x : String × α) : List (String × α) → List (String × α)
  | [] => [x]
  | y :: ys => if strLe x.1 y.1 then x :: y :: ys else y :: insertKV x ys

/-- Sort key-value pairs by key, as both `url.Values.Encode` and
`json.Marshal` do for map keys. -/
def sortKV {α : Type} (l : List (String × α)) : List (String × α) :=
  l.foldr insertKV []

/-- The incremental link joining of the fan-out loops (`links += "\n"` before
every element except the first). -/
def joinNL : List String → String
  | [] => ""
  | [x] => x
  | x :: xs => x ++ "\n" ++ joinNL xs

/-- `strings.Join`: the parts with the separator between consecutive ones. -/
def joinSep (sep : String) : List String → String
  | [] => ""
  | [x] => x
  | x :: xs => x ++ sep ++ joinSep sep xs

/-- `url.Values.Encode`: keys sorted, each pair query-escaped and joined
with ampersands. -/
def encodeQuery (q : List (String × String)) : String :=
  joinSep "&" ((sortKV q).map (fun kv => queryEscape kv.1 ++ "=" ++ queryEscape kv.2))

/-- The observable effect of parsing a well-formed `scheme://user@host:port`
base, attaching a raw query and fragment and re-serializing with
`URL.String()`: the base is reproduced verbatim, the query is appended after
a question mark when non-empty, the escaped fragment after a hash mark when
non-empty. -/
def urlString (base : String) (q : List (String × String)) (frag : String) : String :=
  base ++ (if q.isEmpty then "" else "?" ++ encodeQuery q) ++
    (if frag.isEmpty then "" else "#" ++ fragmentEscape frag)

/-- JSON string escaping as `encoding/json` performs it (HTML-safe mode). -/
def jsonEscapeChar (c : Char) : String :=
  if c = '"' then "\\\""
  else if c = '\\' then "\\\\"
  else if c = '\n' then "\\n"
  else if c = '\r' then "\\r"
  else if c = '\t' then "\\t"
  else if c.toNat < 32 then
    "\\u00" ++ String.mk [(hexDigit (c.toNat / 16)).toLower, (hexDigit (c.toNat % 16)).toLower]
  else if c = '<' then "\\u003c"
  else if c = '>' then "\\u003e"
  else if c = '&' then "\\u0026"
  else if c.toNat = 0x2028 then "\\u2028"
  else if c.toNat = 0x2029 then "\\u2029"
  else String.singleton c

/-- JSON escaping of a whole string. -/
def jsonEscape (s : String) : String :=
  s.data.foldr (fun c acc => jsonEscapeChar c ++ acc) ""

mutual
/-- `json.MarshalIndent(v, "", "  ")` at nesting prefix `ind`: object keys
sorted, two-space indentation (the keys of an object are sorted after the
values are rendered, which yields the same text). -/
def jsonRender (ind : String) : JVal → String
  | .null => "null"
  | .bool true => "true"
  | .bool false => "false"
  | .num n => toString n
  | .str s => "\"" ++ jsonEscape s ++ "\""
  | .arr [] => "[]"
  | .arr (x :: xs) =>
    "[\n" ++ joinSep ",\n" (jsonRenderElems (ind ++ "  ") (x :: xs)) ++ "\n" ++ ind ++ "]"
  | .obj [] => "{}"
  | .obj (kv :: kvs) =>
    "\x7b\n" ++
      joinSep ",\n" ((sortKV (jsonRenderFields (ind ++ "  ") (kv :: kvs))).map
        (fun p => (ind ++ "  ") ++ "\"" ++ jsonEscape p.1 ++ "\": " ++ p.2)) ++
      "\n" ++ ind ++ "\x7d"

/-- Rendered array elements, indentation prepended. -/
def jsonRenderElems (ind : String) : List JVal → List String
  | [] => []
  | x :: xs => (ind ++ jsonRender ind x) :: jsonRenderElems ind xs

/-- Object fields with rendered values, in document order. -/
def jsonRenderFields (ind : String) : List (String × JVal) → List (String × String)
  | [] => []
  | (k, v) :: kvs => (k, jsonRender ind v) :: jsonRenderFields ind kvs
end

/-- `json.MarshalIndent(obj, "", "  ")`. -/
def jsonMarshalIndent (v : JVal) : String := jsonRender "" v

/-! ### Data model: randomness source, inbound record, clients -/

/-- Explicit randomness source: the stream of draws consumed by one call
(the spec requires the random source to be injectable per call). -/
structure Rng where
  draws : List Nat
deriving Repr

/-- The k-th raw draw of the source. -/
def Rng.draw (r : Rng) (k : Nat) : Nat := r.draws.getD k 0

/-- Modelled from the spec: `random.Num n` of the repository's util/random
package (not under src/) — a uniformly random index below `n`; here the
k-th draw of the per-call source reduced mod `n`. -/
def Rng.num (r : Rng) (k n : Nat) : Nat := r.draw k % n

/-- Modelled from the spec: `random.Seq n` of util/random (not under src/) —
a fresh random alphanumeric sequence of length `n`, here derived from the
k-th draw. -/
def Rng.seq (r : Rng) (k n : Nat) : String :=
  String.mk ((List.range n).map (fun i => Char.ofNat (97 + (r.draw k + i) % 26)))

/-- Modelled from the spec: `uuid.New().String()` — a fresh random
identifier, here derived from the k-th draw. -/
def Rng.uuid (r : Rng) (k : Nat) : String :=
  "00000000-0000-4000-8000-" ++ toString (r.draw k)

/-- One per-client traffic record (`xray.ClientTraffic`; the struct is not
under src/, its fields are taken from its uses in the controller). -/
structure ClientTraffic where
  email : String
  enable : Bool
  up : Int
  down : Int
  total : Int
  expiryTime : Int
deriving Repr

/-- The inbound record (`model.Inbound`, fields as used by the encoders).
`settings` and `streamSettings` carry the parse outcome of the stored JSON
texts. -/
structure Inbound where
  protocol : String
  port : Int
  remark : String
  settings : Except String JVal
  streamSettings : Except String JVal
  clientStats : List ClientTraffic
deriving Repr

/-- `model.Client` with the fields the encoders read; the typed
`json.Unmarshal` fills absent or mistyped fields with zero values. -/
structure Client where
  email : String := ""
  id : String := ""
  security : String := ""
  password : String := ""
  flow : String := ""
deriving Repr, DecidableEq, Inhabited

/-- Typed decoding of one client object: each known field is read when it is
a string, and left at its zero value otherwise (the `Unmarshal` error is
ignored by every caller). -/
def decodeClient (v : JVal) : Client :=
  let f := v.asObjD
  { email := (jLookup f "email").asStringD
    id := (jLookup f "id").asStringD
    security := (jLookup f "security").asStringD
    password := (jLookup f "password").asStringD
    flow := (jLookup f "flow").asStringD }

/-- `getClients` from link.go: decode Settings into
`map[string][]model.Client` (error ignored by every caller) and take the
"clients" entry; a parse failure, non-object document, JSON null document or
missing/mistyped "clients" key all yield the nil list. -/
def getClients (inb : Inbound) : List Client :=
  match inb.settings with
  | .ok (.obj fields) =>
    match jLookup fields "clients" with
    | .arr xs => xs.map decodeClient
    | _ => []
  | _ => []

/-- Go two's-complement int64 arithmetic result. -/
def wrap64 (n : Int) : Int := (n + 2 ^ 63) % 2 ^ 64 - 2 ^ 63

/-- `genRemark` from web/util/link.go: join the non-empty components with
hyphens. -/
def genRemark (inb : Inbound) (email extra : String) : String :=
  let remark := inb.remark
  let remark :=
    if email.length > 0 then
      (if remark.length > 0 then remark ++ "-" ++ email else email)
    else remark
  if extra.length > 0 then
    (if remark.length > 0 then remark ++ "-" ++ extra else extra)
  else remark

/-- Modelled from the spec: `common.FormatTraffic` (not under src/) renders
a byte count as human-readable text; its exact format is unspecified and
unused by the claims. -/
def FormatTraffic (n : Int) : String := toString n ++ "B"

namespace Ctrl

/-- `genRemark` from the controller: join the non-empty components with
spaces; with `showInfo`, look up the traffic record by email and either
return the fixed disabled marker plus the labels, or append quota and
expiry suffixes. `now` is the current Unix time in seconds, passed
explicitly. -/
def genRemark (inb : Inbound) (email extra : String)
    (clientStats : List ClientTraffic) (showInfo : Bool) (now : Int) : String :=
  let separationChar := " "
  let remark : List String :=
    (if inb.remark.length > 0 then [inb.remark] else []) ++
    (if email.length > 0 then [email] else []) ++
    (if extra.length > 0 then [extra] else [])
  if showInfo then
    match clientStats.find? (fun cs => cs.email = email) with
    | none => joinSep separationChar remark
    | some stats =>
      if !stats.enable then
        "â›”ï¸N/A" ++ separationChar ++
          joinSep separationChar remark
      else
        let vol := stats.total - (stats.up + stats.down)
        let remark :=
          if vol > 0 then remark ++ [FormatTraffic vol ++ "ğŸ“Š"]
          else remark
        let exp := Int.tdiv stats.expiryTime 1000
        let remark :=
          if exp > 0 then
            let remainingSeconds := exp - now
            let days := Int.tdiv remainingSeconds 86400
            let hours := Int.tdiv (Int.tmod remainingSeconds 86400) 3600
            let minutes := Int.tdiv (Int.tmod remainingSeconds 3600) 60
            if days > 0 then
              (if hours > 0 then
                remark ++ [toString days ++ "D," ++ toString hours ++ "Hâ³"]
              else remark ++ [toString days ++ "Dâ³"])
            else if hours > 0 then remark ++ [toString hours ++ "Hâ³"]
            else remark ++ [toString minutes ++ "Mâ³"]
          else if exp < 0 then
            let days := Int.tdiv exp (-86400)
            let hours := Int.tdiv (Int.tmod exp (-86400)) 3600
            let minutes := Int.tdiv (Int.tmod exp (-3600)) 60
            if days > 0 then
              (if hours > 0 then
                remark ++ [toString days ++ "D," ++ toString hours ++ "Hâ³"]
              else remark ++ [toString days ++ "Dâ³"])
            else if hours > 0 then remark ++ [toString hours ++ "Hâ³"]
            else remark ++ [toString minutes ++ "Mâ³"]
          else remark
        joinSep separationChar remark
  else joinSep separationChar remark

end Ctrl

/-- `GenerateClientDefaults` from web/util/link.go: the common fields, the
gigabyte-to-byte conversion (Go int64 arithmetic), equal creation/update
stamps, then per-protocol identifier or secret; any protocol outside the
enumeration is an error naming it. `now` is the Unix time in seconds. -/
def GenerateClientDefaults (protocol email : String) (totalGB expiryTime : Int)
    (limitIP : Int) (tgID : Int) (subID : String) (now : Int) (r : Rng) :
    Except String JObj :=
  let nowMs := wrap64 (now * 1000)
  let client : JObj :=
    [("email", .str email), ("enable", .bool true), ("limitIp", .num limitIP),
     ("totalGB", .num (wrap64 (totalGB * 1024 * 1024 * 1024))),
     ("expiryTime", .num expiryTime), ("tgId", .num tgID), ("subId", .str subID),
     ("reset", .num 0), ("created_at", .num nowMs), ("updated_at", .num nowMs)]
  match protocol with
  | "vmess" =>
    .ok (mapSet (mapSet (mapSet client "id" (.str (r.uuid 0))) "security" (.str "auto"))
      "alterId" (.num 0))
  | "vless" => .ok (mapSet (mapSet client "id" (.str (r.uuid 0))) "flow" (.str ""))
  | "trojan" => .ok (mapSet (mapSet client "password" (.str (r.seq 0 32))) "flow" (.str ""))
  | "shadowsocks" => .ok (mapSet client "password" (.str (r.seq 0 32)))
  | _ => .error ("unsupported protocol: " ++ protocol)

/-! ### The utility link encoders (web/util/link.go) -/

/-- Query-parameter map of the URI-style encoders. -/
abbrev Params := List (String × String)

/-- The host parameter shared by the ws/httpupgrade/xhttp cases: a non-empty
string "host" field wins, otherwise the headers map is searched. -/
def hostParam (m : JObj) (params : Params) : Option Params :=
  match (jLookup m "host").asString? with
  | some h =>
    if h.length > 0 then pure (mapSet params "host" h)
    else do
      let host ← searchHost (jLookup m "headers")
      pure (mapSet params "host" host)
  | none => do
    let host ← searchHost (jLookup m "headers")
    pure (mapSet params "host" host)

/-- The transport switch of the vless/trojan/shadowsocks utility encoders
(their source text is identical): fill path/host/service/seed/header-type
parameters per network type; unchecked assertions abort. -/
def transportParams (stream : JObj) (network : String) (params : Params) : Option Params :=
  match network with
  | "tcp" =>
    let tcp := (jLookup stream "tcpSettings").asObjD
    let header := (jLookup tcp "header").asObjD
    let typeStr := (jLookup header "type").asStringD
    if typeStr = "http" then do
      let request ← (jLookup header "request").asObj?
      let requestPath := (jLookup request "path").asArrD
      let p0 ← requestPath.head?
      let pathStr ← p0.asString?
      let params := mapSet params "path" pathStr
      let host ← searchHost (jLookup request "headers")
      pure (mapSet (mapSet params "host" host) "headerType" "http")
    else pure params
  | "kcp" => do
    let kcp := (jLookup stream "kcpSettings").asObjD
    let header := (jLookup kcp "header").asObjD
    let ht ← (jLookup header "type").asString?
    let params := mapSet params "headerType" ht
    let seed ← (jLookup kcp "seed").asString?
    pure (mapSet params "seed" seed)
  | "ws" => do
    let ws := (jLookup stream "wsSettings").asObjD
    let pth ← (jLookup ws "path").asString?
    hostParam ws (mapSet params "path" pth)
  | "grpc" => do
    let grpc := (jLookup stream "grpcSettings").asObjD
    let serviceName ← (jLookup grpc "serviceName").asString?
    let params := mapSet params "serviceName" serviceName
    let params := mapSet params "authority" ((jLookup grpc "authority").asStringD)
    let mm ← (jLookup grpc "multiMode").asBool?
    pure (if mm then mapSet params "mode" "multi" else params)
  | "httpupgrade" => do
    let hu := (jLookup stream "httpupgradeSettings").asObjD
    let pth ← (jLookup hu "path").asString?
    hostParam hu (mapSet params "path" pth)
  | "xhttp" => do
    let xh := (jLookup stream "xhttpSettings").asObjD
    let pth ← (jLookup xh "path").asString?
    let params ← hostParam xh (mapSet params "path" pth)
    let mode ← (jLookup xh "mode").asString?
    pure (mapSet params "mode" mode)
  | _ => pure params

/-- The TLS branch of the vless/trojan/shadowsocks utility encoders (their
source text is identical): security=tls, comma-joined ALPN when non-empty,
server name, fingerprint, allow-insecure flag; the fingerprint/insecure
block runs only when the tlsSettings map itself is present (non-nil). -/
def tlsQueryParams (stream : JObj) (params : Params) : Option Params := do
  let params := mapSet params "security" "tls"
  let tlsSettingO := (jLookup stream "tlsSettings").asObj?
  let tlsSetting := tlsSettingO.getD []
  let alpns := (jLookup tlsSetting "alpn").asArrD
  let alpn ← alpns.mapM JVal.asString?
  let params :=
    if alpn.length > 0 then mapSet params "alpn" (joinSep "," alpn) else params
  let params :=
    match searchKey (.obj tlsSetting) "serverName" with
    | some sniValue => mapSet params "sni" sniValue.asStringD
    | none => params
  let tlsSettings := (searchKey (.obj tlsSetting) "settings").getD .null
  if tlsSettingO.isSome then
    let params :=
      match searchKey tlsSettings "fingerprint" with
      | some fpValue => mapSet params "fp" fpValue.asStringD
      | none => params
    match searchKey tlsSettings "allowInsecure" with
    | some insecure => do
      let b ← insecure.asBool?
      pure (if b then mapSet params "allowInsecure" "1" else params)
    | none => pure params
  else pure params

/-- The reality branch of the vless/trojan utility encoders (their source
text is identical): security=reality, randomly chosen server name and short
id, public key, optional non-empty fingerprint and post-quantum key, random
15-character path-spoofing suffix, then the tcp flow parameter. -/
def realityQueryParams (stream : JObj) (network flow : String) (params : Params)
    (r : Rng) : Option Params := do
  let params := mapSet params "security" "reality"
  let realitySettingO := (jLookup stream "realitySettings").asObj?
  let realitySetting := realitySettingO.getD []
  let realitySettings := (searchKey (.obj realitySetting) "settings").getD .null
  let params ←
    if realitySettingO.isSome then do
      let params ←
        match searchKey (.obj realitySetting) "serverNames" with
        | some sniValue => do
          let sNames := sniValue.asArrD
          let v ← sNames.get? (r.num 0 sNames.length)
          let s ← v.asString?
          pure (mapSet params "sni" s)
        | none => pure params
      let params :=
        match searchKey realitySettings "publicKey" with
        | some pbkValue => mapSet params "pbk" pbkValue.asStringD
        | none => params
      let params ←
        match searchKey (.obj realitySetting) "shortIds" with
        | some sidValue => do
          let shortIds := sidValue.asArrD
          let v ← shortIds.get? (r.num 1 shortIds.length)
          let s ← v.asString?
          pure (mapSet params "sid" s)
        | none => pure params
      let params :=
        match searchKey realitySettings "fingerprint" with
        | some fpValue =>
          match fpValue.asString? with
          | some fp => if fp.length > 0 then mapSet params "fp" fp else params
          | none => params
        | none => params
      let params :=
        match searchKey realitySettings "mldsa65Verify" with
        | some pqvValue =>
          match pqvValue.asString? with
          | some pqv => if pqv.length > 0 then mapSet params "pqv" pqv else params
          | none => params
        | none => params
      pure (mapSet params "spx" ("/" ++ r.seq 2 15))
    else pure params
  pure (if network = "tcp" ∧ flow.length > 0 then mapSet params "flow" flow else params)

/-- The external-proxy fan-out loop of the URI-style encoders: per entry,
override the security parameter (any value except "same" replaces it, "same"
restores the raw decoded security string), strip alpn/sni/fp/allowInsecure
when the forced security is "none", retarget the link at the entry's
dest:port (the dest is read with a defaulted assertion, so a missing or
mistyped dest yields an empty host) and use the entry's remark suffix. The
params map is threaded through the loop as the Go code mutates it in
place. -/
def uriEntriesLoop (scheme userinfo : String) (inb : Inbound) (email security : String)
    (params : Params) : List JVal → Option (List String)
  | [] => some []
  | e :: rest => do
    let ep := e.asObjD
    let newSecurity := (jLookup ep "forceTls").asStringD
    let dest := (jLookup ep "dest").asStringD
    let eport ← (jLookup ep "port").asInt?
    let params := mapSet params "security" (if newSecurity ≠ "same" then newSecurity else security)
    let q := params.filter (fun kv =>
      !(newSecurity == "none" &&
        (kv.1 == "alpn" || kv.1 == "sni" || kv.1 == "fp" || kv.1 == "allowInsecure")))
    let remark ← (jLookup ep "remark").asString?
    let link := urlString (scheme ++ "://" ++ userinfo ++ "@" ++ dest ++ ":" ++ toString eport)
      q (genRemark inb email remark)
    let links ← uriEntriesLoop scheme userinfo inb email security params rest
    pure (link :: links)

/-- The fan-out-or-single assembly shared by the utility URI-style encoders:
with external-proxy entries, one link per entry joined by newlines; without,
a single link targeting the given address and the inbound's own port, with
the empty remark suffix. -/
def uriAssemble (scheme userinfo : String) (inb : Inbound) (email address security : String)
    (params : Params) : Option String :=
  let stream := decodeObj inb.streamSettings
  let externalProxies := (jLookup stream "externalProxy").asArrD
  if externalProxies.length > 0 then do
    let links ← uriEntriesLoop scheme userinfo inb email security params externalProxies
    pure (joinNL links)
  else
    pure (urlString (scheme ++ "://" ++ userinfo ++ "@" ++ address ++ ":" ++ toString inb.port)
      params (genRemark inb email ""))

/-- The query-parameter construction of the vless utility encoder: network
type, optional encryption, transport switch, TLS branch (with the tcp flow
parameter), reality branch, and the security=none default. -/
def vlessParamsFull (stream settings : JObj) (flow : String) (r : Rng) : Option Params := do
  let streamNetwork ← (jLookup stream "network").asString?
  let params : Params := [("type", streamNetwork)]
  let params :=
    match (jLookup settings "encryption").asString? with
    | some enc => mapSet params "encryption" enc
    | none => params
  let params ← transportParams stream streamNetwork params
  let security := (jLookup stream "security").asStringD
  let params ←
    if security = "tls" then do
      let params ← tlsQueryParams stream params
      pure (if streamNetwork = "tcp" ∧ flow.length > 0 then
        mapSet params "flow" flow else params)
    else pure params
  let params ←
    if security = "reality" then realityQueryParams stream streamNetwork flow params r
    else pure params
  pure (if security ≠ "tls" ∧ security ≠ "reality" then mapSet params "security" "none"
    else params)

/-- `genVlessLink` from web/util/link.go. -/
def genVlessLink (inb : Inbound) (email address : String) (r : Rng) : Option String :=
  if inb.protocol ≠ "vless" then some "" else
  let stream := decodeObj inb.streamSettings
  let clients := getClients inb
  match clients.findIdx? (fun c => c.email == email) with
  | none => some ""
  | some clientIndex =>
    let c := clients.getD clientIndex {}
    let security := (jLookup stream "security").asStringD
    do
    let params ← vlessParamsFull stream (decodeObj inb.settings) c.flow r
    uriAssemble "vless" c.id inb email address security params

/-- The query-parameter construction of the trojan utility encoder: as the
vless one, but without the encryption parameter and without the flow
parameter in the TLS branch. -/
def trojanParamsFull (stream : JObj) (flow : String) (r : Rng) : Option Params := do
  let streamNetwork ← (jLookup stream "network").asString?
  let params : Params := [("type", streamNetwork)]
  let params ← transportParams stream streamNetwork params
  let security := (jLookup stream "security").asStringD
  let params ←
    if security = "tls" then tlsQueryParams stream params
    else pure params
  let params ←
    if security = "reality" then realityQueryParams stream streamNetwork flow params r
    else pure params
  pure (if security ≠ "tls" ∧ security ≠ "reality" then mapSet params "security" "none"
    else params)

/-- `genTrojanLink` from web/util/link.go (like vless, but authenticated by
the client password). -/
def genTrojanLink (inb : Inbound) (email address : String) (r : Rng) : Option String :=
  if inb.protocol ≠ "trojan" then some "" else
  let stream := decodeObj inb.streamSettings
  let clients := getClients inb
  match clients.findIdx? (fun c => c.email == email) with
  | none => some ""
  | some clientIndex =>
    let c := clients.getD clientIndex {}
    let security := (jLookup stream "security").asStringD
    do
    let params ← trojanParamsFull stream c.flow r
    uriAssemble "trojan" c.password inb email address security params

/-- The shadowsocks credential segment: `method:clientPassword`, with the
inbound-level password inserted when the method's first character is '2';
an empty method panics on the `method[0]` byte access. -/
def ssEncPart (method inboundPassword clientPassword : String) : Option String :=
  if method.length = 0 then none
  else if method.front = '2' then
    some (method ++ ":" ++ inboundPassword ++ ":" ++ clientPassword)
  else some (method ++ ":" ++ clientPassword)

/-- The query-parameter construction of the shadowsocks utility encoder:
network type, transport switch and TLS branch only — no reality branch and
no security=none default exist for shadowsocks. -/
def ssParamsFull (stream : JObj) : Option Params := do
  let streamNetwork ← (jLookup stream "network").asString?
  let params : Params := [("type", streamNetwork)]
  let params ← transportParams stream streamNetwork params
  let security := (jLookup stream "security").asStringD
  if security = "tls" then tlsQueryParams stream params
  else pure params

/-- `genShadowsocksLink` from web/util/link.go: the inbound password and
cipher method are read with unchecked assertions before the client lookup. -/
def genShadowsocksLink (inb : Inbound) (email address : String) : Option String :=
  if inb.protocol ≠ "shadowsocks" then some "" else
  let stream := decodeObj inb.streamSettings
  let clients := getClients inb
  let settings := decodeObj inb.settings
  do
  let inboundPassword ← (jLookup settings "password").asString?
  let method ← (jLookup settings "method").asString?
  match clients.findIdx? (fun c => c.email == email) with
  | none => some ""
  | some clientIndex =>
    let c := clients.getD clientIndex {}
    let security := (jLookup stream "security").asStringD
    do
    let params ← ssParamsFull stream
    let encPart ← ssEncPart method inboundPassword c.password
    uriAssemble "ss" (base64EncodeStr encPart) inb email address security params

/-- The host field shared by the vmess ws/httpupgrade/xhttp cases. -/
def hostObj (m : JObj) (obj : JObj) : Option JObj :=
  match (jLookup m "host").asString? with
  | some h =>
    if h.length > 0 then pure (mapSet obj "host" (.str h))
    else do
      let host ← searchHost (jLookup m "headers")
      pure (mapSet obj "host" (.str host))
  | none => do
    let host ← searchHost (jLookup m "headers")
    pure (mapSet obj "host" (.str host))

/-- The transport switch of the vmess encoders (identical in the utility and
controller variants): fill the legacy vmess JSON keys per network type. -/
def vmessTransport (stream : JObj) (network : String) (obj : JObj) : Option JObj :=
  match network with
  | "tcp" =>
    let tcp := (jLookup stream "tcpSettings").asObjD
    let header := (jLookup tcp "header").asObjD
    let typeStr := (jLookup header "type").asStringD
    let obj := mapSet obj "type" (.str typeStr)
    if typeStr = "http" then do
      let request ← (jLookup header "request").asObj?
      let requestPath := (jLookup request "path").asArrD
      let p0 ← requestPath.head?
      let pathStr ← p0.asString?
      let obj := mapSet obj "path" (.str pathStr)
      let host ← searchHost (jLookup request "headers")
      pure (mapSet obj "host" (.str host))
    else pure obj
  | "kcp" =>
    let kcp := (jLookup stream "kcpSettings").asObjD
    let header := (jLookup kcp "header").asObjD
    let obj := mapSet obj "type" (.str ((jLookup header "type").asStringD))
    pure (mapSet obj "path" (.str ((jLookup kcp "seed").asStringD)))
  | "ws" => do
    let ws := (jLookup stream "wsSettings").asObjD
    let pth ← (jLookup ws "path").asString?
    hostObj ws (mapSet obj "path" (.str pth))
  | "grpc" => do
    let grpc := (jLookup stream "grpcSettings").asObjD
    let serviceName ← (jLookup grpc "serviceName").asString?
    let obj := mapSet obj "path" (.str serviceName)
    let authority ← (jLookup grpc "authority").asString?
    let obj := mapSet obj "authority" (.str authority)
    let mm ← (jLookup grpc "multiMode").asBool?
    pure (if mm then mapSet obj "type" (.str "multi") else obj)
  | "httpupgrade" => do
    let hu := (jLookup stream "httpupgradeSettings").asObjD
    let pth ← (jLookup hu "path").asString?
    hostObj hu (mapSet obj "path" (.str pth))
  | "xhttp" => do
    let xh := (jLookup stream "xhttpSettings").asObjD
    let pth ← (jLookup xh "path").asString?
    let obj ← hostObj xh (mapSet obj "path" (.str pth))
    let mode ← (jLookup xh "mode").asString?
    pure (mapSet obj "mode" (.str mode))
  | _ => pure obj

/-- The security section of the vmess encoders (identical in the utility and
controller variants): the decoded security string is copied verbatim into
the "tls" key; the TLS branch adds ALPN (only when non-empty), server name,
fingerprint and the allow-insecure flag (defaulted bool assertion). -/
def vmessTls (stream : JObj) (security : String) (obj : JObj) : Option JObj := do
  let obj := mapSet obj "tls" (.str security)
  if security = "tls" then
    let tlsSettingO := (jLookup stream "tlsSettings").asObj?
    let tlsSetting := tlsSettingO.getD []
    let alpns := (jLookup tlsSetting "alpn").asArrD
    let obj ←
      if alpns.length > 0 then do
        let alpn ← alpns.mapM JVal.asString?
        pure (mapSet obj "alpn" (.str (joinSep "," alpn)))
      else pure obj
    let obj :=
      match searchKey (.obj tlsSetting) "serverName" with
      | some sniValue => mapSet obj "sni" (.str sniValue.asStringD)
      | none => obj
    let tlsSettings := (searchKey (.obj tlsSetting) "settings").getD .null
    if tlsSettingO.isSome then
      let obj :=
        match searchKey tlsSettings "fingerprint" with
        | some fpValue => mapSet obj "fp" (.str fpValue.asStringD)
        | none => obj
      let obj :=
        match searchKey tlsSettings "allowInsecure" with
        | some insecure => mapSet obj "allowInsecure" (.bool insecure.asBoolD)
        | none => obj
      pure obj
    else pure obj
  else pure obj

/-- Serialization of one vmess object: indented JSON, base64, scheme. -/
def vmessRender (obj : JObj) : String :=
  "vmess://" ++ base64EncodeStr (jsonMarshalIndent (.obj obj))

/-- The vmess external-proxy fan-out loop of the utility encoder: per entry,
copy the object minus the stripped TLS keys when the forced security is
"none", set remark/destination/port, and override "tls" unless the forced
security is "same" (the entry's remark is read with an unchecked string
assertion). -/
def vmessEntriesLoop (inb : Inbound) (email : String) (obj : JObj) :
    List JVal → Option (List String)
  | [] => some []
  | e :: rest => do
    let ep := e.asObjD
    let newSecurity := (jLookup ep "forceTls").asStringD
    let newObj := obj.filter (fun kv =>
      !(newSecurity == "none" &&
        (kv.1 == "alpn" || kv.1 == "sni" || kv.1 == "fp" || kv.1 == "allowInsecure")))
    let remark ← (jLookup ep "remark").asString?
    let newObj := mapSet newObj "ps" (.str (genRemark inb email remark))
    let dest ← (jLookup ep "dest").asString?
    let newObj := mapSet newObj "add" (.str dest)
    let eport ← (jLookup ep "port").asInt?
    let newObj := mapSet newObj "port" (.num eport)
    let newObj := if newSecurity ≠ "same" then mapSet newObj "tls" (.str newSecurity) else newObj
    let links ← vmessEntriesLoop inb email obj rest
    pure (vmessRender newObj :: links)

/-- The object construction shared by both vmess encoders (their transport
and security source text is identical): version, address, port, network,
transport fields, then the security section. -/
def vmessObjPre (inb : Inbound) (address : String) : Option JObj :=
  let stream := decodeObj inb.streamSettings
  let network := (jLookup stream "network").asStringD
  let obj : JObj :=
    [("v", .str "2"), ("add", .str address), ("port", .num inb.port),
     ("type", .str "none"), ("net", .str network)]
  do
  let obj ← vmessTransport stream network obj
  vmessTls stream ((jLookup stream "security").asStringD) obj

/-- The fan-out-or-single assembly of the vmess utility encoder. -/
def vmessAssemble (inb : Inbound) (email : String) (obj : JObj) : Option String :=
  let stream := decodeObj inb.streamSettings
  let externalProxies := (jLookup stream "externalProxy").asArrD
  if externalProxies.length > 0 then do
    let links ← vmessEntriesLoop inb email obj externalProxies
    pure (joinNL links)
  else
    pure (vmessRender (mapSet obj "ps" (.str (genRemark inb email ""))))

/-- `genVmessLink` from web/util/link.go: transport and security sections
run before the client lookup; the client id and security level are the
typed client fields. -/
def genVmessLink (inb : Inbound) (email address : String) : Option String :=
  if inb.protocol ≠ "vmess" then some "" else do
  let obj ← vmessObjPre inb address
  let clients := getClients inb
  match clients.findIdx? (fun c => c.email == email) with
  | none => some ""
  | some clientIndex =>
    let c := clients.getD clientIndex {}
    vmessAssemble inb email (mapSet (mapSet obj "id" (.str c.id)) "scy" (.str c.security))

/-- `GetClientLink` from web/util/link.go: dispatch on the inbound protocol;
any other protocol yields the empty string. -/
def GetClientLink (inb : Inbound) (email address : String) (r : Rng) : Option String :=
  match inb.protocol with
  | "vmess" => genVmessLink inb email address
  | "vless" => genVlessLink inb email address r
  | "trojan" => genTrojanLink inb email address r
  | "shadowsocks" => genShadowsocksLink inb email address
  | _ => some ""

namespace Ctrl

/-! ### The controller link encoders (the parallel implementation) -/

/-- Generic client extraction of the controller encoders: the "clients"
entry as a slice of maps (non-map elements become nil maps). -/
def clientsOf (settings : JObj) : List JObj :=
  ((jLookup settings "clients").asArrD).map JVal.asObjD

/-- Client lookup of the controller encoders: first element whose "email"
field is a string equal to the given email. -/
def findClientIdx (clients : List JObj) (email : String) : Option Nat :=
  clients.findIdx? (fun c => (jLookup c "email").asString? == some email)

/-- The transport switch of the controller vless/trojan/shadowsocks
encoders: as the utility one, but the kcp header type and seed, the paths,
the grpc service name and the xhttp mode are read with defaulted assertions,
and the grpc authority and multiMode parameters are set only when present
and well-typed. -/
def transportParams (stream : JObj) (network : String) (params : Params) : Option Params :=
  match network with
  | "tcp" =>
    let tcp := (jLookup stream "tcpSettings").asObjD
    let header := (jLookup tcp "header").asObjD
    let typeStr := (jLookup header "type").asStringD
    if typeStr = "http" then do
      let request ← (jLookup header "request").asObj?
      let requestPath := (jLookup request "path").asArrD
      let p0 ← requestPath.head?
      let pathStr ← p0.asString?
      let params := mapSet params "path" pathStr
      let host ← searchHost (jLookup request "headers")
      pure (mapSet (mapSet params "host" host) "headerType" "http")
    else pure params
  | "kcp" =>
    let kcp := (jLookup stream "kcpSettings").asObjD
    let header := (jLookup kcp "header").asObjD
    let params := mapSet params "headerType" ((jLookup header "type").asStringD)
    pure (mapSet params "seed" ((jLookup kcp "seed").asStringD))
  | "ws" =>
    let ws := (jLookup stream "wsSettings").asObjD
    hostParam ws (mapSet params "path" ((jLookup ws "path").asStringD))
  | "grpc" =>
    let grpc := (jLookup stream "grpcSettings").asObjD
    let params := mapSet params "serviceName" ((jLookup grpc "serviceName").asStringD)
    let params :=
      match (jLookup grpc "authority").asString? with
      | some authority => mapSet params "authority" authority
      | none => params
    let params :=
      match (jLookup grpc "multiMode").asBool? with
      | some true => mapSet params "mode" "multi"
      | _ => params
    pure params
  | "httpupgrade" =>
    let hu := (jLookup stream "httpupgradeSettings").asObjD
    hostParam hu (mapSet params "path" ((jLookup hu "path").asStringD))
  | "xhttp" => do
    let xh := (jLookup stream "xhttpSettings").asObjD
    let params ← hostParam xh (mapSet params "path" ((jLookup xh "path").asStringD))
    pure (mapSet params "mode" ((jLookup xh "mode").asStringD))
  | _ => pure params

/-- The TLS branch of the controller vless/trojan/shadowsocks encoders: the
server name and fingerprint are set only when they are strings, and the
fingerprint/insecure block is guarded by the searched "settings" value being
non-nil (not by the outer map as in the utility variant). -/
def tlsQueryParams (stream : JObj) (params : Params) : Option Params := do
  let params := mapSet params "security" "tls"
  let tlsSetting := (jLookup stream "tlsSettings").asObjD
  let alpns := (jLookup tlsSetting "alpn").asArrD
  let alpn ← alpns.mapM JVal.asString?
  let params :=
    if alpn.length > 0 then mapSet params "alpn" (joinSep "," alpn) else params
  let params :=
    match searchKey (.obj tlsSetting) "serverName" with
    | some sniValue =>
      match sniValue.asString? with
      | some sni => mapSet params "sni" sni
      | none => params
    | none => params
  let tlsSettings := (searchKey (.obj tlsSetting) "settings").getD .null
  match tlsSettings with
  | .null => pure params
  | _ =>
    let params :=
      match searchKey tlsSettings "fingerprint" with
      | some fpValue =>
        match fpValue.asString? with
        | some fp => mapSet params "fp" fp
        | none => params
      | none => params
    match searchKey tlsSettings "allowInsecure" with
    | some insecure => do
      let b ← insecure.asBool?
      pure (if b then mapSet params "allowInsecure" "1" else params)
    | none => pure params

/-- The reality branch of the controller vless/trojan encoders: as the
utility one, but the server-name and short-id pools are only sampled when
non-empty, and the public key only set when it is a string. -/
def realityQueryParams (stream : JObj) (network flow : String) (params : Params)
    (r : Rng) : Option Params := do
  let params := mapSet params "security" "reality"
  let realitySettingO := (jLookup stream "realitySettings").asObj?
  let realitySetting := realitySettingO.getD []
  let realitySettings := (searchKey (.obj realitySetting) "settings").getD .null
  let params ←
    if realitySettingO.isSome then do
      let params ←
        match searchKey (.obj realitySetting) "serverNames" with
        | some sniValue => do
          let sNames := sniValue.asArrD
          if sNames.length > 0 then do
            let v ← sNames.get? (r.num 0 sNames.length)
            let s ← v.asString?
            pure (mapSet params "sni" s)
          else pure params
        | none => pure params
      let params :=
        match searchKey realitySettings "publicKey" with
        | some pbkValue =>
          match pbkValue.asString? with
          | some pbk => mapSet params "pbk" pbk
          | none => params
        | none => params
      let params ←
        match searchKey (.obj realitySetting) "shortIds" with
        | some sidValue => do
          let shortIds := sidValue.asArrD
          if shortIds.length > 0 then do
            let v ← shortIds.get? (r.num 1 shortIds.length)
            let s ← v.asString?
            pure (mapSet params "sid" s)
          else pure params
        | none => pure params
      let params :=
        match searchKey realitySettings "fingerprint" with
        | some fpValue =>
          match fpValue.asString? with
          | some fp => if fp.length > 0 then mapSet params "fp" fp else params
          | none => params
        | none => params
      let params :=
        match searchKey realitySettings "mldsa65Verify" with
        | some pqvValue =>
          match pqvValue.asString? with
          | some pqv => if pqv.length > 0 then mapSet params "pqv" pqv else params
          | none => params
        | none => params
      pure (mapSet params "spx" ("/" ++ r.seq 2 15))
    else pure params
  pure (if network = "tcp" ∧ flow.length > 0 then mapSet params "flow" flow else params)

/-- The external-proxy fan-out loop of the controller URI-style encoders:
as the utility one, but the entry remark is read with a defaulted assertion
and the controller remark builder is used (showInfo is false, so the time
argument is irrelevant). -/
def uriEntriesLoop (scheme userinfo : String) (inb : Inbound) (email security : String)
    (params : Params) : List JVal → Option (List String)
  | [] => some []
  | e :: rest => do
    let ep := e.asObjD
    let newSecurity := (jLookup ep "forceTls").asStringD
    let dest := (jLookup ep "dest").asStringD
    let eport ← (jLookup ep "port").asInt?
    let params := mapSet params "security" (if newSecurity ≠ "same" then newSecurity else security)
    let q := params.filter (fun kv =>
      !(newSecurity == "none" &&
        (kv.1 == "alpn" || kv.1 == "sni" || kv.1 == "fp" || kv.1 == "allowInsecure")))
    let remarkStr := (jLookup ep "remark").asStringD
    let link := urlString (scheme ++ "://" ++ userinfo ++ "@" ++ dest ++ ":" ++ toString eport)
      q (genRemark inb email remarkStr inb.clientStats false 0)
    let links ← uriEntriesLoop scheme userinfo inb email security params rest
    pure (link :: links)

/-- The vmess external-proxy fan-out loop of the controller encoder: as the
utility one, but the entry remark is read with a defaulted assertion and the
controller remark builder is used. -/
def vmessEntriesLoop (inb : Inbound) (email : String) (obj : JObj) :
    List JVal → Option (List String)
  | [] => some []
  | e :: rest => do
    let ep := e.asObjD
    let newSecurity := (jLookup ep "forceTls").asStringD
    let newObj := obj.filter (fun kv =>
      !(newSecurity == "none" &&
        (kv.1 == "alpn" || kv.1 == "sni" || kv.1 == "fp" || kv.1 == "allowInsecure")))
    let remarkStr := (jLookup ep "remark").asStringD
    let newObj := mapSet newObj "ps" (.str (genRemark inb email remarkStr inb.clientStats false 0))
    let dest ← (jLookup ep "dest").asString?
    let newObj := mapSet newObj "add" (.str dest)
    let eport ← (jLookup ep "port").asInt?
    let newObj := mapSet newObj "port" (.num eport)
    let newObj := if newSecurity ≠ "same" then mapSet newObj "tls" (.str newSecurity) else newObj
    let links ← vmessEntriesLoop inb email obj rest
    pure (vmessRender newObj :: links)

/-- The fan-out-or-single assembly of the controller vmess encoder. -/
def vmessAssemble (inb : Inbound) (email : String) (obj : JObj) : Option String :=
  let stream := decodeObj inb.streamSettings
  let externalProxies := (jLookup stream "externalProxy").asArrD
  if externalProxies.length > 0 then do
    let links ← vmessEntriesLoop inb email obj externalProxies
    pure (joinNL links)
  else
    pure (vmessRender (mapSet obj "ps"
      (.str (genRemark inb email "" inb.clientStats false 0))))

/-- `genVmessLink` from the controller: the transport and security sections
are identical to the utility encoder; the clients are read generically from
the Settings document and id/scy with defaulted assertions. -/
def genVmessLink (inb : Inbound) (address email : String) : Option String :=
  if inb.protocol ≠ "vmess" then some "" else do
  let obj ← vmessObjPre inb address
  let clients := clientsOf (decodeObj inb.settings)
  match findClientIdx clients email with
  | none => some ""
  | some clientIndex =>
    let c := clients.getD clientIndex []
    vmessAssemble inb email (mapSet (mapSet obj "id" (.str ((jLookup c "id").asStringD)))
      "scy" (.str ((jLookup c "security").asStringD)))

/-- The fan-out-or-single assembly of the controller URI-style encoders. -/
def uriAssemble (scheme userinfo : String) (inb : Inbound) (email address security : String)
    (params : Params) : Option String :=
  let stream := decodeObj inb.streamSettings
  let externalProxies := (jLookup stream "externalProxy").asArrD
  if externalProxies.length > 0 then do
    let links ← uriEntriesLoop scheme userinfo inb email security params externalProxies
    pure (joinNL links)
  else
    pure (urlString (scheme ++ "://" ++ userinfo ++ "@" ++ address ++ ":" ++ toString inb.port)
      params (genRemark inb email "" inb.clientStats false 0))

/-- The query-parameter construction of the controller vless encoder. -/
def vlessParamsFull (stream settings : JObj) (flow : String) (r : Rng) : Option Params := do
  let streamNetwork := (jLookup stream "network").asStringD
  let params : Params := [("type", streamNetwork)]
  let params :=
    match (jLookup settings "encryption").asString? with
    | some enc => mapSet params "encryption" enc
    | none => params
  let params ← transportParams stream streamNetwork params
  let security := (jLookup stream "security").asStringD
  let params ←
    if security = "tls" then do
      let params ← tlsQueryParams stream params
      pure (if streamNetwork = "tcp" ∧ flow.length > 0 then
        mapSet params "flow" flow else params)
    else pure params
  let params ←
    if security = "reality" then realityQueryParams stream streamNetwork flow params r
    else pure params
  pure (if security ≠ "tls" ∧ security ≠ "reality" then mapSet params "security" "none"
    else params)

/-- `genVlessLink` from the controller. -/
def genVlessLink (inb : Inbound) (address email : String) (r : Rng) : Option String :=
  if inb.protocol ≠ "vless" then some "" else
  let stream := decodeObj inb.streamSettings
  let settings := decodeObj inb.settings
  let clients := clientsOf settings
  match findClientIdx clients email with
  | none => some ""
  | some clientIndex =>
    let c := clients.getD clientIndex []
    let security := (jLookup stream "security").asStringD
    do
    let params ← vlessParamsFull stream settings ((jLookup c "flow").asStringD) r
    uriAssemble "vless" ((jLookup c "id").asStringD) inb email address security params

/-- The query-parameter construction of the controller trojan encoder. -/
def trojanParamsFull (stream : JObj) (flow : String) (r : Rng) : Option Params := do
  let streamNetwork := (jLookup stream "network").asStringD
  let params : Params := [("type", streamNetwork)]
  let params ← transportParams stream streamNetwork params
  let security := (jLookup stream "security").asStringD
  let params ←
    if security = "tls" then tlsQueryParams stream params
    else pure params
  let params ←
    if security = "reality" then realityQueryParams stream streamNetwork flow params r
    else pure params
  pure (if security ≠ "tls" ∧ security ≠ "reality" then mapSet params "security" "none"
    else params)

/-- `genTrojanLink` from the controller. -/
def genTrojanLink (inb : Inbound) (address email : String) (r : Rng) : Option String :=
  if inb.protocol ≠ "trojan" then some "" else
  let stream := decodeObj inb.streamSettings
  let settings := decodeObj inb.settings
  let clients := clientsOf settings
  match findClientIdx clients email with
  | none => some ""
  | some clientIndex =>
    let c := clients.getD clientIndex []
    let security := (jLookup stream "security").asStringD
    do
    let params ← trojanParamsFull stream ((jLookup c "flow").asStringD) r
    uriAssemble "trojan" ((jLookup c "password").asStringD) inb email address security params

/-- The query-parameter construction of the controller shadowsocks encoder
(the network type is read with a defaulted assertion, unlike the utility
variant). -/
def ssParamsFull (stream : JObj) : Option Params := do
  let streamNetwork := (jLookup stream "network").asStringD
  let params : Params := [("type", streamNetwork)]
  let params ← transportParams stream streamNetwork params
  let security := (jLookup stream "security").asStringD
  if security = "tls" then tlsQueryParams stream params
  else pure params

/-- `genShadowsocksLink` from the controller: the inbound password and
method are read with defaulted assertions (but `method[0]` still panics on
an empty method). -/
def genShadowsocksLink (inb : Inbound) (address email : String) : Option String :=
  if inb.protocol ≠ "shadowsocks" then some "" else
  let stream := decodeObj inb.streamSettings
  let settings := decodeObj inb.settings
  let inboundPassword := (jLookup settings "password").asStringD
  let method := (jLookup settings "method").asStringD
  let clients := clientsOf settings
  match findClientIdx clients email with
  | none => some ""
  | some clientIndex =>
    let c := clients.getD clientIndex []
    let security := (jLookup stream "security").asStringD
    do
    let params ← ssParamsFull stream
    let encPart ← ssEncPart method inboundPassword ((jLookup c "password").asStringD)
    uriAssemble "ss" (base64EncodeStr encPart) inb email address security params

/-- `getLink` from the controller: dispatch on the inbound protocol. -/
def getLink (inb : Inbound) (address email : String) (r : Rng) : Option String :=
  match inb.protocol with
  | "vmess" => genVmessLink inb address email
  | "vless" => genVlessLink inb address email r
  | "trojan" => genTrojanLink inb address email r
  | "shadowsocks" => genShadowsocksLink inb address email
  | _ => some ""

end Ctrl

/-! ### Association-list lemmas -/

theorem mapGet?_mapSet_self {α : Type} (l : List (String × α)) (k : String) (v : α) :
    mapGet? (mapSet l k v) k = some v := by
  induction l with
  | nil => simp [mapSet, mapGet?]
  | cons kv rest ih =>
    obtain ⟨k1, v1⟩ := kv
    by_cases h : k1 = k
    · simp [mapSet, h, mapGet?]
    · simp [mapSet, h, mapGet?, ih]

theorem mapGet?_mapSet_ne {α : Type} (l : List (String × α)) (k k2 : String) (v : α)
    (h : k ≠ k2) : mapGet? (mapSet l k v) k2 = mapGet? l k2 := by
  induction l with
  | nil => simp [mapSet, mapGet?, h]
  | cons kv rest ih =>
    obtain ⟨k1, v1⟩ := kv
    by_cases h1 : k1 = k
    · simp [mapSet, h1, mapGet?, h]
    · simp only [mapSet, if_neg h1]
      by_cases h2 : k1 = k2 <;> simp [mapGet?, h2, ih]

theorem mapSet_mapSet_same {α : Type} (l : List (String × α)) (k : String) (a b : α) :
    mapSet (mapSet l k a) k b = mapSet l k b := by
  induction l with
  | nil => simp [mapSet]
  | cons kv rest ih =>
    obtain ⟨k1, v1⟩ := kv
    by_cases h : k1 = k
    · simp [mapSet, h]
    · simp [mapSet, h, ih]

theorem mapGet?_filter_none {α : Type} (l : List (String × α)) (p : String × α → Bool)
    (k : String) (h : ∀ v, p (k, v) = false) : mapGet? (l.filter p) k = none := by
  induction l with
  | nil => simp [mapGet?]
  | cons kv rest ih =>
    obtain ⟨k1, v1⟩ := kv
    by_cases h1 : k1 = k
    · subst h1
      simp [List.filter, h v1, ih]
    · by_cases h2 : p (k1, v1) <;> simp [List.filter, h2, mapGet?, h1, ih]

theorem mapGet?_filter_kept {α : Type} (l : List (String × α)) (p : String × α → Bool)
    (k : String) (h : ∀ v, p (k, v) = true) : mapGet? (l.filter p) k = mapGet? l k := by
  induction l with
  | nil => simp [mapGet?]
  | cons kv rest ih =>
    obtain ⟨k1, v1⟩ := kv
    by_cases h1 : k1 = k
    · subst h1
      simp [List.filter, h v1, mapGet?, ih]
    · by_cases h2 : p (k1, v1) <;> simp [List.filter, h2, mapGet?, h1, ih]

/-! ### C6: the nested-key search -/

mutual
/-- Specification: the object-field values bound to `key`, in depth-first
pre-order (a field name is visited before the subtree of its value). -/
def keyOccurrences : JVal → String → List JVal
  | .obj fields, key => keyOccObj fields key
  | .arr xs, key => keyOccArr xs key
  | _, _ => []

/-- Occurrences inside an object's field list. -/
def keyOccObj : List (String × JVal) → String → List JVal
  | [], _ => []
  | (k, v) :: rest, key =>
    (if k = key then [v] else []) ++ keyOccurrences v key ++ keyOccObj rest key

/-- Occurrences inside an array's elements. -/
def keyOccArr : List JVal → String → List JVal
  | [], _ => []
  | v :: rest, key => keyOccurrences v key ++ keyOccArr rest key
end

theorem head?_append {α : Type} (l1 l2 : List α) :
    (l1 ++ l2).head? = (l1.head?).orElse (fun _ => l2.head?) := by
  cases l1 <;> simp

theorem searchKey_spec_all :
    (∀ (t : JVal) (key : String), searchKey t key = (keyOccurrences t key).head?) ∧
    (∀ (xs : List JVal) (key : String), searchKeyArr xs key = (keyOccArr xs key).head?) ∧
    (∀ (l : List (String × JVal)) (key : String),
      searchKeyObj l key = (keyOccObj l key).head?) := by
  refine searchKey.mutual_induct
    (fun t key => searchKey t key = (keyOccurrences t key).head?)
    (fun xs key => searchKeyArr xs key = (keyOccArr xs key).head?)
    (fun l key => searchKeyObj l key = (keyOccObj l key).head?)
    ?_ ?_ ?_ ?_ ?_ ?_ ?_ ?_ ?_ ?_
  · intro fields key ih
    simpa [searchKey, keyOccurrences] using ih
  · intro xs key ih
    simpa [searchKey, keyOccurrences] using ih
  · intro t x hobj harr
    cases t with
    | obj fields => exact absurd rfl (hobj fields)
    | arr xs => exact absurd rfl (harr xs)
    | null => simp [searchKey, keyOccurrences]
    | bool b => simp [searchKey, keyOccurrences]
    | num n => simp [searchKey, keyOccurrences]
    | str s => simp [searchKey, keyOccurrences]
  · intro x
    simp [searchKeyArr, keyOccArr]
  · intro v rest key r hv ih
    rw [hv] at ih
    simp [searchKeyArr, hv, keyOccArr, head?_append, ← ih]
  · intro v rest key hv ih1 ih2
    rw [hv] at ih1
    have hnil : keyOccurrences v key = [] := by
      cases hoc : keyOccurrences v key with
      | nil => rfl
      | cons a l => rw [hoc] at ih1; simp at ih1
    simp [searchKeyArr, hv, keyOccArr, hnil, ih2]
  · intro x
    simp [searchKeyObj, keyOccObj]
  · intro v rest key
    simp [searchKeyObj, keyOccObj]
  · intro k v rest key hk r hv ih
    rw [hv] at ih
    simp [searchKeyObj, hk, hv, keyOccObj, head?_append, ← ih]
  · intro k v rest key hk hv ih1 ih2
    rw [hv] at ih1
    have hnil : keyOccurrences v key = [] := by
      cases hoc : keyOccurrences v key with
      | nil => rfl
      | cons a l => rw [hoc] at ih1; simp at ih1
    simp [searchKeyObj, hk, hv, keyOccObj, hnil, ih2]

/-- C6: for every finite JSON-shaped tree and every key, `searchKey`
terminates (it is a total function of this development) and returns exactly
the first depth-first occurrence of `key` as an object field name — the
head of the depth-first occurrence list — and returns `none` (the
`(nil, false)` result, no exception) precisely when the key occurs nowhere
in the tree. -/
theorem C6_searchKey_first_depth_first :
    (∀ (t : JVal) (key : String), searchKey t key = (keyOccurrences t key).head?) ∧
    (∀ (t : JVal) (key : String), searchKey t key = none ↔ keyOccurrences t key = []) := by
  obtain ⟨h1, -, -⟩ := searchKey_spec_all
  refine ⟨h1, fun t key => ?_⟩
  rw [h1 t key]
  exact List.head?_eq_none_iff

/-! ### C8: the remark builders -/

theorem length_append_pos_left (a b : String) (h : 0 < a.length) : 0 < (a ++ b).length := by
  simp only [String.length_append]
  omega

theorem eq_empty_of_length_zero {s : String} (h : s.length = 0) : s = "" := by
  obtain ⟨data⟩ := s
  cases data with
  | nil => rfl
  | cons c cs => simp [String.length] at h

theorem string_append_assoc (a b c : String) : a ++ b ++ c = a ++ (b ++ c) := by
  obtain ⟨ad⟩ := a
  obtain ⟨bd⟩ := b
  obtain ⟨cd⟩ := c
  show String.mk (ad ++ bd ++ cd) = String.mk (ad ++ (bd ++ cd))
  exact congrArg String.mk (List.append_assoc ad bd cd)

theorem bne_zero_of_pos {n : Nat} (h : 0 < n) : (n != 0) = true := by
  simp [Nat.pos_iff_ne_zero.mp h]

theorem bne_zero_of_eq {n : Nat} (h : n = 0) : (n != 0) = false := by
  simp [h]

theorem parts_filter (r e x : String) :
    ((if r.length > 0 then [r] else []) ++ (if e.length > 0 then [e] else []) ++
      (if x.length > 0 then [x] else [])) =
    ([r, e, x].filter (fun s => s.length != 0)) := by
  rcases Nat.eq_zero_or_pos r.length with h1 | h1 <;>
    rcases Nat.eq_zero_or_pos e.length with h2 | h2 <;>
      rcases Nat.eq_zero_or_pos x.length with h3 | h3 <;>
        simp [h1, h2, h3, List.filter, bne_zero_of_pos, bne_zero_of_eq]

/-- C8: both remark builders join exactly the non-empty components among
(inbound remark, email, extra suffix), in that order, each with its single
fixed separator (hyphen for the utility builder, space for the controller
builder); and when live info is requested, traffic records are supplied and
the record found for the email is disabled, the controller builder returns
the fixed disabled marker followed by the joined labels, with no quota or
expiry suffix. -/
theorem C8_remark_joins_nonempty_parts :
    (∀ (inb : Inbound) (email extra : String),
      genRemark inb email extra =
        joinSep "-" ([inb.remark, email, extra].filter (fun s => s.length != 0))) ∧
    (∀ (inb : Inbound) (email extra : String) (stats : List ClientTraffic) (now : Int),
      Ctrl.genRemark inb email extra stats false now =
        joinSep " " ([inb.remark, email, extra].filter (fun s => s.length != 0))) ∧
    (∀ (inb : Inbound) (email extra : String) (stats : List ClientTraffic) (now : Int)
      (st : ClientTraffic),
      stats.find? (fun cs => cs.email = email) = some st → st.enable = false →
      Ctrl.genRemark inb email extra stats true now =
        "â›”ï¸N/A" ++ " " ++
          joinSep " " ([inb.remark, email, extra].filter (fun s => s.length != 0))) := by
  refine ⟨?_, ?_, ?_⟩
  · intro inb email extra
    unfold genRemark
    rcases Nat.eq_zero_or_pos inb.remark.length with h1 | h1 <;>
      rcases Nat.eq_zero_or_pos email.length with h2 | h2 <;>
        rcases Nat.eq_zero_or_pos extra.length with h3 | h3 <;>
          simp [h1, h2, h3, List.filter, joinSep, bne_zero_of_pos, bne_zero_of_eq,
            length_append_pos_left, eq_empty_of_length_zero, string_append_assoc]
  · intro inb email extra stats now
    unfold Ctrl.genRemark
    rw [parts_filter]
    simp
  · intro inb email extra stats now st hfind henable
    unfold Ctrl.genRemark
    rw [parts_filter]
    simp [hfind, henable]

/-- Concrete inbound for the C8 witness. -/
def c8Inb : Inbound :=
  { protocol := "vmess", port := 1, remark := "R", settings := .ok .null,
    streamSettings := .ok .null, clientStats := [] }

/-- Concrete disabled traffic record for the C8 witness. -/
def c8St : ClientTraffic :=
  { email := "bob", enable := false, up := 0, down := 0, total := 0, expiryTime := 0 }

theorem C8_remark_joins_nonempty_parts_witness :
    ([c8St].find? (fun cs => cs.email = "bob") = some c8St ∧ c8St.enable = false) ∧
    Ctrl.genRemark c8Inb "bob" "" [c8St] true 0 =
      "â›”ï¸N/A" ++ " " ++
        joinSep " " ([c8Inb.remark, "bob", ""].filter (fun s => s.length != 0)) :=
  ⟨⟨rfl, rfl⟩, C8_remark_joins_nonempty_parts.2.2 c8Inb "bob" "" [c8St] 0 c8St rfl rfl⟩

/-! ### C7: default-client generation -/

theorem wrap64_eq_self (x : Int) (h1 : -(2 ^ 63) ≤ x) (h2 : x < 2 ^ 63) : wrap64 x = x := by
  unfold wrap64
  omega

/-- C7: `GenerateClientDefaults` returns an error naming the offending
protocol exactly for protocols outside the fixed enumeration; for each
supported protocol it produces a record with reset counter 0, equal
creation and update timestamps, the gigabyte quota converted to bytes by
multiplying by 1024³ (exact whenever the int64 product does not overflow),
and a freshly drawn random identifier (vmess/vless) or fixed-length
32-character random secret (trojan/shadowsocks). -/
theorem C7_generate_client_defaults :
    (∀ (p email : String) (totalGB expiryTime : Int) (limitIP tgID : Int) (subID : String)
      (now : Int) (r : Rng),
      p ∉ (["vmess", "vless", "trojan", "shadowsocks"] : List String) →
      GenerateClientDefaults p email totalGB expiryTime limitIP tgID subID now r =
        .error ("unsupported protocol: " ++ p)) ∧
    (∀ p, p ∈ (["vmess", "vless", "trojan", "shadowsocks"] : List String) →
      ∀ (email : String) (totalGB expiryTime : Int) (limitIP tgID : Int) (subID : String)
        (now : Int) (r : Rng),
      ∃ c, GenerateClientDefaults p email totalGB expiryTime limitIP tgID subID now r = .ok c ∧
        mapGet? c "reset" = some (.num 0) ∧
        mapGet? c "created_at" = some (.num (wrap64 (now * 1000))) ∧
        mapGet? c "updated_at" = mapGet? c "created_at" ∧
        (-(2 ^ 63) ≤ totalGB * (1024 * 1024 * 1024) → totalGB * (1024 * 1024 * 1024) < 2 ^ 63 →
          mapGet? c "totalGB" = some (.num (totalGB * (1024 * 1024 * 1024)))) ∧
        ((p = "vmess" ∨ p = "vless") → mapGet? c "id" = some (.str (r.uuid 0))) ∧
        ((p = "trojan" ∨ p = "shadowsocks") →
          mapGet? c "password" = some (.str (r.seq 0 32)) ∧ (r.seq 0 32).length = 32)) := by
  constructor
  · intro p email totalGB expiryTime limitIP tgID subID now r h
    simp only [List.mem_cons, List.not_mem_nil, or_false] at h
    push_neg at h
    obtain ⟨h1, h2, h3, h4⟩ := h
    unfold GenerateClientDefaults
    split
    · exact absurd rfl h1
    · exact absurd rfl h2
    · exact absurd rfl h3
    · exact absurd rfl h4
    · rfl
  · intro p hp email totalGB expiryTime limitIP tgID subID now r
    have hlen : (Rng.seq r 0 32).length = 32 := by
      simp [Rng.seq]
    have hw : ∀ y : Int, -(2 ^ 63) ≤ y * (1024 * 1024 * 1024) →
        y * (1024 * 1024 * 1024) < 2 ^ 63 →
        wrap64 (y * 1024 * 1024 * 1024) = y * (1024 * 1024 * 1024) := by
      intro y hy1 hy2
      rw [show y * 1024 * 1024 * 1024 = y * (1024 * 1024 * 1024) by ring]
      exact wrap64_eq_self _ hy1 hy2
    simp only [List.mem_cons, List.not_mem_nil, or_false] at hp
    rcases hp with h | h | h | h
    · subst h
      refine ⟨_, rfl, ?_⟩
      simp [GenerateClientDefaults, mapSet, mapGet?]
      intro hy1 hy2
      exact hw totalGB hy1 hy2
    · subst h
      refine ⟨_, rfl, ?_⟩
      simp [GenerateClientDefaults, mapSet, mapGet?]
      intro hy1 hy2
      exact hw totalGB hy1 hy2
    · subst h
      refine ⟨_, rfl, ?_⟩
      simp [GenerateClientDefaults, mapSet, mapGet?, hlen]
      intro hy1 hy2
      exact hw totalGB hy1 hy2
    · subst h
      refine ⟨_, rfl, ?_⟩
      simp [GenerateClientDefaults, mapSet, mapGet?, hlen]
      intro hy1 hy2
      exact hw totalGB hy1 hy2

theorem C7_generate_client_defaults_witness :
    GenerateClientDefaults "wireguard" "a" 5 0 0 0 "s" 1700000000 ⟨[7]⟩ =
      .error ("unsupported protocol: " ++ "wireguard") ∧
    (∃ c, GenerateClientDefaults "trojan" "a" 5 0 0 0 "s" 1700000000 ⟨[7]⟩ = .ok c ∧
      mapGet? c "reset" = some (.num 0) ∧
      mapGet? c "totalGB" = some (.num 5368709120) ∧
      mapGet? c "password" = some (.str (Rng.seq ⟨[7]⟩ 0 32))) := by
  refine ⟨C7_generate_client_defaults.1 "wireguard" "a" 5 0 0 0 "s" 1700000000 ⟨[7]⟩
    (by decide), ?_⟩
  obtain ⟨c, hc, hreset, hca, hcu, htot, hid, hpw⟩ :=
    C7_generate_client_defaults.2 "trojan" (by decide) "a" 5 0 0 0 "s" 1700000000 ⟨[7]⟩
  refine ⟨c, hc, hreset, ?_, (hpw (Or.inl rfl)).1⟩
  rw [htot (by norm_num) (by norm_num)]
  norm_num

/-! ### C2: unguarded optional-field accesses abort the encode -/

/-- Valid JSON throughout: a vmess inbound over websocket whose wsSettings
omit the optional "path" field. -/
def c2Inbound : Inbound :=
  { protocol := "vmess", port := 443, remark := "",
    settings := .ok (.obj [("clients", .arr [.obj [("email", .str "eve")]])]),
    streamSettings := .ok (.obj [("network", .str "ws"), ("wsSettings", .obj [])]),
    clientStats := [] }

/-- Valid JSON throughout: a shadowsocks inbound whose Settings omit the
method and password fields. -/
def c2SsInbound : Inbound :=
  { protocol := "shadowsocks", port := 443, remark := "",
    settings := .ok (.obj [("clients", .arr [.obj [("email", .str "eve")]])]),
    streamSettings := .ok (.obj [("network", .str "tcp")]),
    clientStats := [] }

/-- C2 (code_bug evidence): the spec's edge-case policy says a missing
optional transport or protocol field must resolve to an empty default, but
the encoders abort: with both documents syntactically valid JSON, a missing
wsSettings "path" aborts the vmess encode on the unchecked
`ws["path"].(string)` assertion, and missing shadowsocks "password"/"method"
fields abort the shadowsocks encode on `settings["password"].(string)`. -/
theorem C2_missing_optional_field_aborts :
    genVmessLink c2Inbound "eve" "9.9.9.9" = none ∧
    genShadowsocksLink c2SsInbound "eve" "9.9.9.9" = none := by
  constructor <;> decide

/-! ### C1: error taxonomy of the encode operation -/

/-- A vmess inbound whose Settings text is syntactically invalid JSON. -/
def c1BadInbound : Inbound :=
  { protocol := "vmess", port := 443, remark := "",
    settings := .error "unexpected end of JSON input",
    streamSettings := .ok (.obj []),
    clientStats := [] }

/-- C1 (counterexample): with a syntactically invalid Settings document the
claim demands a hard decode error carrying the parse failure; the code
instead ignores the `json.Unmarshal` error and returns the empty string as
a normal result (there is no error channel in `GetClientLink` at all). -/
theorem C1_counterexample_invalid_json_no_error :
    GetClientLink c1BadInbound "ghost@nowhere" "1.2.3.4" ⟨[]⟩ = some "" := by
  decide

theorem vmessRender_length (o : JObj) : 8 ≤ (vmessRender o).length := by
  simp only [vmessRender, String.length_append]
  have h : ("vmess://" : String).length = 8 := rfl
  omega

theorem joinNL_cons_length (x : String) (xs : List String) :
    x.length ≤ (joinNL (x :: xs)).length := by
  cases xs with
  | nil => simp [joinNL]
  | cons y ys =>
    simp only [joinNL, String.length_append]
    omega

theorem vmessEntriesLoop_cons_shape (inb : Inbound) (email : String) (obj : JObj)
    (e : JVal) (rest : List JVal) (L : List String)
    (h : vmessEntriesLoop inb email obj (e :: rest) = some L) :
    ∃ newObj links, L = vmessRender newObj :: links := by
  simp only [vmessEntriesLoop, Option.bind_eq_bind, Option.bind_eq_some] at h
  obtain ⟨rem, hrem, h⟩ := h
  obtain ⟨dest, hdest, h⟩ := h
  obtain ⟨eport, heport, h⟩ := h
  obtain ⟨links, hlinks, h⟩ := h
  exact ⟨_, links, by injection h with h; exact h.symm⟩

theorem vmessAssemble_ne_empty (inb : Inbound) (email : String) (obj : JObj) :
    vmessAssemble inb email obj ≠ some "" := by
  unfold vmessAssemble
  dsimp only
  split
  · rename_i hlen
    intro h
    simp only [Option.bind_eq_bind, Option.bind_eq_some] at h
    obtain ⟨L, hL, hjoin⟩ := h
    injection hjoin with hjoin
    cases hes : (jLookup (decodeObj inb.streamSettings) "externalProxy").asArrD with
    | nil => rw [hes] at hlen; simp at hlen
    | cons e rest =>
      rw [hes] at hL
      obtain ⟨newObj, links, hshape⟩ := vmessEntriesLoop_cons_shape inb email obj e rest L hL
      subst hshape
      have h1 := vmessRender_length newObj
      have h2 := joinNL_cons_length (vmessRender newObj) links
      rw [hjoin] at h2
      simp at h2
      omega
  · intro h
    injection h with h
    have h1 := vmessRender_length (mapSet obj "ps" (.str (genRemark inb email "")))
    rw [h] at h1
    simp at h1

/-- C1 (amended): the encode operation never returns an error value — a
syntactically invalid Settings document decodes as the empty client list
and encoding proceeds normally. The empty string is produced whenever the
protocol lies outside the enumeration or does not match the invoked
encoder; and for the vmess encoder the result is the empty string exactly
when the protocol matches, the transport/security phase does not abort, and
no decoded client carries the requested email (in particular for any
inbound whose Settings fail to parse). -/
theorem C1_no_error_channel_empty_string :
    (∀ (inb : Inbound) (e a : String) (r : Rng),
      inb.protocol ∉ (["vmess", "vless", "trojan", "shadowsocks"] : List String) →
      GetClientLink inb e a r = some "") ∧
    (∀ (inb : Inbound) (e a : String) (r : Rng),
      (inb.protocol ≠ "vmess" → genVmessLink inb e a = some "") ∧
      (inb.protocol ≠ "vless" → genVlessLink inb e a r = some "") ∧
      (inb.protocol ≠ "trojan" → genTrojanLink inb e a r = some "") ∧
      (inb.protocol ≠ "shadowsocks" → genShadowsocksLink inb e a = some "")) ∧
    (∀ (inb : Inbound) (err : String), inb.settings = .error err → getClients inb = []) ∧
    (∀ (inb : Inbound) (e a : String), inb.protocol = "vmess" →
      (genVmessLink inb e a = some "" ↔
        ((vmessObjPre inb a).isSome ∧
          (getClients inb).findIdx? (fun c => c.email == e) = none))) := by
  refine ⟨?_, ?_, ?_, ?_⟩
  · intro inb e a r h
    simp only [List.mem_cons, List.not_mem_nil, or_false] at h
    push_neg at h
    obtain ⟨h1, h2, h3, h4⟩ := h
    unfold GetClientLink
    split
    · rename_i heq
      exact absurd heq h1
    · rename_i heq
      exact absurd heq h2
    · rename_i heq
      exact absurd heq h3
    · rename_i heq
      exact absurd heq h4
    · rfl
  · intro inb e a r
    refine ⟨fun h => ?_, fun h => ?_, fun h => ?_, fun h => ?_⟩
    · simp [genVmessLink, h]
    · simp [genVlessLink, h]
    · simp [genTrojanLink, h]
    · simp [genShadowsocksLink, h]
  · intro inb err h
    simp [getClients, h]
  · intro inb e a hp
    constructor
    · intro h
      unfold genVmessLink at h
      rw [if_neg (by simp [hp])] at h
      cases hpre : vmessObjPre inb a with
      | none => rw [hpre] at h; simp at h
      | some obj =>
        rw [hpre] at h
        simp only [Option.bind_eq_bind, Option.some_bind] at h
        cases hfind : (getClients inb).findIdx? (fun c => c.email == e) with
        | none => exact ⟨by simp [hpre], rfl⟩
        | some i =>
          rw [hfind] at h
          exact absurd h (vmessAssemble_ne_empty inb e _)
    · rintro ⟨hpre, hfind⟩
      obtain ⟨obj, hobj⟩ := Option.isSome_iff_exists.mp hpre
      unfold genVmessLink
      rw [if_neg (by simp [hp])]
      rw [hobj]
      simp only [Option.bind_eq_bind, Option.some_bind]
      rw [hfind]

/-- An inbound with a protocol outside the enumeration. -/
def c1OtherInbound : Inbound :=
  { protocol := "http", port := 1, remark := "",
    settings := .ok (.obj []), streamSettings := .ok (.obj []), clientStats := [] }

theorem C1_no_error_channel_empty_string_witness :
    GetClientLink c1OtherInbound "e" "a" ⟨[]⟩ = some "" ∧
    genVmessLink c1OtherInbound "e" "a" = some "" ∧
    getClients c1BadInbound = [] ∧
    genVmessLink c1BadInbound "ghost@nowhere" "1.2.3.4" = some "" := by
  refine ⟨C1_no_error_channel_empty_string.1 c1OtherInbound "e" "a" ⟨[]⟩ (by decide),
    (C1_no_error_channel_empty_string.2.1 c1OtherInbound "e" "a" ⟨[]⟩).1 (by decide),
    C1_no_error_channel_empty_string.2.2.1 c1BadInbound "unexpected end of JSON input" rfl,
    (C1_no_error_channel_empty_string.2.2.2 c1BadInbound "ghost@nowhere" "1.2.3.4" rfl).mpr
      ⟨by decide, by decide⟩⟩

/-! ### C5: the security=none default -/

/-- A vmess inbound whose decoded security mode is "xtls" (neither tls nor
reality). -/
def c5VmessInbound : Inbound :=
  { protocol := "vmess", port := 100, remark := "",
    settings := .ok (.obj [("clients", .arr [.obj [("email", .str "e"), ("id", .str "u"),
      ("security", .str "auto")]])]),
    streamSettings := .ok (.obj [("network", .str "tcp"), ("security", .str "xtls")]),
    clientStats := [] }

/-- A shadowsocks inbound whose decoded security mode is "xtls". -/
def c5SsInbound : Inbound :=
  { protocol := "shadowsocks", port := 100, remark := "",
    settings := .ok (.obj [("password", .str "P"), ("method", .str "aes-256-gcm"),
      ("clients", .arr [.obj [("email", .str "e"), ("password", .str "w")]])]),
    streamSettings := .ok (.obj [("network", .str "tcp"), ("security", .str "xtls")]),
    clientStats := [] }

/-- C5 (counterexample): with security mode "xtls" (neither "tls" nor
"reality") the vmess encoder emits the decoded security string verbatim in
the "tls" key — the produced link decodes to a JSON object with
"tls": "xtls", not "none" — and the shadowsocks encoder emits no security
parameter at all (its parameter map has no "security" binding and the
produced link's query is just "type=tcp"). -/
theorem C5_counterexample_vmess_ss_not_none :
    (vmessObjPre c5VmessInbound "1.2.3.4").map (fun o => jLookup o "tls") =
      some (.str "xtls") ∧
    genVmessLink c5VmessInbound "e" "1.2.3.4" =
      some "vmess://ewogICJhZGQiOiAiMS4yLjMuNCIsCiAgImlkIjogInUiLAogICJuZXQiOiAidGNwIiwKICAicG9ydCI6IDEwMCwKICAicHMiOiAiZSIsCiAgInNjeSI6ICJhdXRvIiwKICAidGxzIjogInh0bHMiLAogICJ0eXBlIjogIiIsCiAgInYiOiAiMiIKfQ==" ∧
    (ssParamsFull (decodeObj c5SsInbound.streamSettings)).map
      (fun p => mapGet? p "security") = some none ∧
    genShadowsocksLink c5SsInbound "e" "1.2.3.4" =
      some "ss://YWVzLTI1Ni1nY206dw==@1.2.3.4:100?type=tcp#e" := by
  refine ⟨by decide, by decide, by decide, by decide⟩

theorem hostParam_get (m : JObj) (params p : Params) (k : String) (hk : k ≠ "host")
    (h : hostParam m params = some p) : mapGet? p k = mapGet? params k := by
  unfold hostParam at h
  split at h
  · split at h
    · injection h with h
      subst h
      exact mapGet?_mapSet_ne _ _ _ _ (by simpa using hk.symm)
    · simp only [Option.bind_eq_bind, Option.bind_eq_some, Option.pure_def,
        Option.some_inj] at h
      obtain ⟨host, hh, h⟩ := h
      subst h
      exact mapGet?_mapSet_ne _ _ _ _ (by simpa using hk.symm)
  · simp only [Option.bind_eq_bind, Option.bind_eq_some, Option.pure_def,
      Option.some_inj] at h
    obtain ⟨host, hh, h⟩ := h
    subst h
    exact mapGet?_mapSet_ne _ _ _ _ (by simpa using hk.symm)

theorem transportParams_get_security (stream : JObj) (network : String) (params p : Params)
    (h : transportParams stream network params = some p) :
    mapGet? p "security" = mapGet? params "security" := by
  unfold transportParams at h
  split at h
  · dsimp only at h
    split at h
    · simp only [Option.bind_eq_bind, Option.bind_eq_some, Option.pure_def,
        Option.some_inj] at h
      obtain ⟨request, h1, p0, h2, pathStr, h3, host, h4, h⟩ := h
      subst h
      rw [mapGet?_mapSet_ne _ _ _ _ (by decide), mapGet?_mapSet_ne _ _ _ _ (by decide),
        mapGet?_mapSet_ne _ _ _ _ (by decide)]
    · simp only [Option.pure_def, Option.some_inj] at h
      subst h
      rfl
  · simp only [Option.bind_eq_bind, Option.bind_eq_some, Option.pure_def,
      Option.some_inj] at h
    obtain ⟨ht, h1, seed, h2, h⟩ := h
    subst h
    rw [mapGet?_mapSet_ne _ _ _ _ (by decide), mapGet?_mapSet_ne _ _ _ _ (by decide)]
  · simp only [Option.bind_eq_bind, Option.bind_eq_some] at h
    obtain ⟨pth, h1, h2⟩ := h
    rw [hostParam_get _ _ _ _ (by decide) h2, mapGet?_mapSet_ne _ _ _ _ (by decide)]
  · simp only [Option.bind_eq_bind, Option.bind_eq_some, Option.pure_def,
      Option.some_inj] at h
    obtain ⟨serviceName, h1, mm, h2, h⟩ := h
    subst h
    split
    · rw [mapGet?_mapSet_ne _ _ _ _ (by decide), mapGet?_mapSet_ne _ _ _ _ (by decide),
        mapGet?_mapSet_ne _ _ _ _ (by decide)]
    · rw [mapGet?_mapSet_ne _ _ _ _ (by decide), mapGet?_mapSet_ne _ _ _ _ (by decide)]
  · simp only [Option.bind_eq_bind, Option.bind_eq_some] at h
    obtain ⟨pth, h1, h2⟩ := h
    rw [hostParam_get _ _ _ _ (by decide) h2, mapGet?_mapSet_ne _ _ _ _ (by decide)]
  · simp only [Option.bind_eq_bind, Option.bind_eq_some, Option.pure_def,
      Option.some_inj] at h
    obtain ⟨pth, h1, p2, h2, mode, h3, h⟩ := h
    subst h
    rw [mapGet?_mapSet_ne _ _ _ _ (by decide), hostParam_get _ _ _ _ (by decide) h2,
      mapGet?_mapSet_ne _ _ _ _ (by decide)]
  · simp only [Option.pure_def, Option.some_inj] at h
    subst h
    rfl

/-- C5 (amended): when the decoded security mode is neither "tls" nor
"reality", the vless and trojan encoders set the security query parameter
to the literal "none"; the vmess encoder instead copies the decoded
security string verbatim into the "tls" key, and the shadowsocks encoder
emits no security parameter at all. -/
theorem C5_security_none_amended :
    (∀ (stream settings : JObj) (flow : String) (r : Rng) (p : Params),
      (jLookup stream "security").asStringD ≠ "tls" →
      (jLookup stream "security").asStringD ≠ "reality" →
      vlessParamsFull stream settings flow r = some p →
      mapGet? p "security" = some "none") ∧
    (∀ (stream : JObj) (flow : String) (r : Rng) (p : Params),
      (jLookup stream "security").asStringD ≠ "tls" →
      (jLookup stream "security").asStringD ≠ "reality" →
      trojanParamsFull stream flow r = some p →
      mapGet? p "security" = some "none") ∧
    (∀ (stream obj : JObj) (o : JObj),
      (jLookup stream "security").asStringD ≠ "tls" →
      vmessTls stream ((jLookup stream "security").asStringD) obj = some o →
      jLookup o "tls" = .str ((jLookup stream "security").asStringD)) ∧
    (∀ (stream : JObj) (p : Params),
      (jLookup stream "security").asStringD ≠ "tls" →
      ssParamsFull stream = some p →
      mapGet? p "security" = none) := by
  refine ⟨?_, ?_, ?_, ?_⟩
  · intro stream settings flow r p h1 h2 h
    unfold vlessParamsFull at h
    dsimp only at h
    simp only [if_neg h1, if_neg h2, if_pos (And.intro h1 h2)] at h
    simp only [Option.bind_eq_bind, Option.bind_eq_some, Option.pure_def,
      Option.some_inj] at h
    obtain ⟨network, hn, p2, ht, h⟩ := h
    obtain ⟨a, ha, b, hb, h⟩ := h
    subst ha hb h
    exact mapGet?_mapSet_self _ _ _
  · intro stream flow r p h1 h2 h
    unfold trojanParamsFull at h
    dsimp only at h
    simp only [if_neg h1, if_neg h2, if_pos (And.intro h1 h2)] at h
    simp only [Option.bind_eq_bind, Option.bind_eq_some, Option.pure_def,
      Option.some_inj] at h
    obtain ⟨network, hn, p2, ht, h⟩ := h
    obtain ⟨a, ha, b, hb, h⟩ := h
    subst ha hb h
    exact mapGet?_mapSet_self _ _ _
  · intro stream obj o h1 h
    unfold vmessTls at h
    simp only [if_neg h1] at h
    simp only [Option.pure_def, Option.some_inj] at h
    subst h
    simp [jLookup, mapGet?_mapSet_self]
  · intro stream p h1 h
    unfold ssParamsFull at h
    dsimp only at h
    simp only [if_neg h1] at h
    simp only [Option.bind_eq_bind, Option.bind_eq_some, Option.pure_def,
      Option.some_inj] at h
    obtain ⟨network, hn, p2, ht, h⟩ := h
    subst h
    rw [transportParams_get_security _ _ _ _ ht]
    rfl

theorem C5_security_none_amended_witness :
    (∃ p, vlessParamsFull (decodeObj c5SsInbound.streamSettings) [] "" ⟨[]⟩ = some p ∧
      mapGet? p "security" = some "none") ∧
    (∃ p, trojanParamsFull (decodeObj c5SsInbound.streamSettings) "" ⟨[]⟩ = some p ∧
      mapGet? p "security" = some "none") ∧
    (∃ o, vmessTls (decodeObj c5VmessInbound.streamSettings)
        ((jLookup (decodeObj c5VmessInbound.streamSettings) "security").asStringD) [] =
        some o ∧
      jLookup o "tls" =
        .str ((jLookup (decodeObj c5VmessInbound.streamSettings) "security").asStringD)) ∧
    (∃ p, ssParamsFull (decodeObj c5SsInbound.streamSettings) = some p ∧
      mapGet? p "security" = none) := by
  refine ⟨?_, ?_, ?_, ?_⟩
  · have h : vlessParamsFull (decodeObj c5SsInbound.streamSettings) [] "" ⟨[]⟩ =
        some [("type", "tcp"), ("security", "none")] := by decide
    exact ⟨_, h, C5_security_none_amended.1 _ _ _ _ _ (by decide) (by decide) h⟩
  · have h : trojanParamsFull (decodeObj c5SsInbound.streamSettings) "" ⟨[]⟩ =
        some [("type", "tcp"), ("security", "none")] := by decide
    exact ⟨_, h, C5_security_none_amended.2.1 _ _ _ _ (by decide) (by decide) h⟩
  · have h : vmessTls (decodeObj c5VmessInbound.streamSettings)
        ((jLookup (decodeObj c5VmessInbound.streamSettings) "security").asStringD) [] =
        some [("tls", .str "xtls")] := by decide
    exact ⟨_, h, C5_security_none_amended.2.2.1 _ _ _ (by decide) h⟩
  · have h : ssParamsFull (decodeObj c5SsInbound.streamSettings) =
        some [("type", "tcp")] := by decide
    exact ⟨_, h, C5_security_none_amended.2.2.2 _ _ (by decide) h⟩

/-! ### C4: the shadowsocks credential segment -/

/-- The password of the first client carrying the email (empty when none). -/
def ssClientPassword (inb : Inbound) (email : String) : String :=
  match (getClients inb).findIdx? (fun c => c.email == email) with
  | some i => ((getClients inb).getD i {}).password
  | none => ""

theorem joinNL_cons_eq (x : String) (xs : List String) :
    ∃ t, joinNL (x :: xs) = x ++ t := by
  cases xs with
  | nil => exact ⟨"", by simp [joinNL]⟩
  | cons y ys => exact ⟨"\n" ++ joinNL (y :: ys), by simp [joinNL, string_append_assoc]⟩

theorem urlString_eq_append (base : String) (q : Params) (frag : String) :
    ∃ t, urlString base q frag = base ++ t :=
  ⟨(if q.isEmpty then "" else "?" ++ encodeQuery q) ++
    (if frag.isEmpty then "" else "#" ++ fragmentEscape frag),
   string_append_assoc base _ _⟩

theorem uriEntriesLoop_cons_shape (scheme userinfo : String) (inb : Inbound)
    (email security : String) (params : Params) (e : JVal) (rest : List JVal)
    (L : List String)
    (h : uriEntriesLoop scheme userinfo inb email security params (e :: rest) = some L) :
    ∃ (dest : String) (eport : Int) (q : Params) (frag : String) (links : List String),
      L = urlString (scheme ++ "://" ++ userinfo ++ "@" ++ dest ++ ":" ++ toString eport)
        q frag :: links := by
  simp only [uriEntriesLoop, Option.bind_eq_bind, Option.bind_eq_some, Option.pure_def,
    Option.some_inj] at h
  obtain ⟨eport, heport, rem, hrem, links, hlinks, h⟩ := h
  exact ⟨(jLookup e.asObjD "dest").asStringD, eport, _, _, links, h.symm⟩

theorem uriAssemble_shape (scheme userinfo : String) (inb : Inbound)
    (email address security : String) (params : Params) (s : String)
    (h : uriAssemble scheme userinfo inb email address security params = some s) :
    ∃ rest, s = scheme ++ "://" ++ userinfo ++ "@" ++ rest := by
  unfold uriAssemble at h
  dsimp only at h
  split at h
  · rename_i hlen
    simp only [Option.bind_eq_bind, Option.bind_eq_some, Option.pure_def,
      Option.some_inj] at h
    obtain ⟨L, hL, hs⟩ := h
    cases hes : (jLookup (decodeObj inb.streamSettings) "externalProxy").asArrD with
    | nil => rw [hes] at hlen; simp at hlen
    | cons e erest =>
      rw [hes] at hL
      obtain ⟨dest, eport, q, frag, links, hshape⟩ :=
        uriEntriesLoop_cons_shape scheme userinfo inb email security params e erest L hL
      subst hshape
      obtain ⟨t1, ht1⟩ := joinNL_cons_eq _ links
      obtain ⟨t2, ht2⟩ :=
        urlString_eq_append (scheme ++ "://" ++ userinfo ++ "@" ++ dest ++ ":" ++
          toString eport) q frag
      refine ⟨dest ++ (":" ++ (toString eport ++ (t2 ++ t1))), ?_⟩
      rw [← hs, ht1, ht2]
      simp [string_append_assoc]
  · simp only [Option.pure_def, Option.some_inj] at h
    obtain ⟨t2, ht2⟩ :=
      urlString_eq_append (scheme ++ "://" ++ userinfo ++ "@" ++ address ++ ":" ++
        toString inb.port) params (genRemark inb email "")
    refine ⟨address ++ (":" ++ (toString inb.port ++ t2)), ?_⟩
    rw [← h, ht2]
    simp [string_append_assoc]

/-- C4: whenever the shadowsocks encoder produces a non-empty link, its
userinfo segment is the standard base64 encoding of "method:clientPassword"
when the method's first character is not '2', and of
"method:inboundPassword:clientPassword" when it is '2' (the method is
necessarily non-empty, or the encode would have aborted); in particular the
spec's example scenario produces
base64("2022-blake3-aes-128-gcm:ABCDEF:ghijkl"). -/
theorem C4_ss_credential_segment :
    (∀ (inb : Inbound) (email address s m ip : String),
      inb.protocol = "shadowsocks" →
      (jLookup (decodeObj inb.settings) "password").asString? = some ip →
      (jLookup (decodeObj inb.settings) "method").asString? = some m →
      genShadowsocksLink inb email address = some s → s ≠ "" →
      m ≠ "" ∧
      ∃ rest, s = "ss://" ++ base64EncodeStr
        (if m.front = '2' then m ++ ":" ++ ip ++ ":" ++ ssClientPassword inb email
         else m ++ ":" ++ ssClientPassword inb email) ++ "@" ++ rest) ∧
    base64EncodeStr "2022-blake3-aes-128-gcm:ABCDEF:ghijkl" =
      "MjAyMi1ibGFrZTMtYWVzLTEyOC1nY206QUJDREVGOmdoaWprbA==" := by
  constructor
  · intro inb email address s m ip hp hip hm h hne
    unfold genShadowsocksLink at h
    rw [if_neg (by simp [hp])] at h
    dsimp only at h
    rw [hip, hm] at h
    simp only [Option.bind_eq_bind, Option.some_bind] at h
    cases hfind : (getClients inb).findIdx? (fun c => c.email == email) with
    | none =>
      rw [hfind] at h
      injection h with h
      exact absurd h.symm hne
    | some i =>
      rw [hfind] at h
      dsimp only at h
      simp only [Option.bind_eq_bind, Option.bind_eq_some] at h
      obtain ⟨params, hparams, enc, henc, hassemble⟩ := h
      unfold ssEncPart at henc
      split at henc
      · exact absurd henc (by simp)
      · rename_i hmlen
        have hm0 : m ≠ "" := by
          intro hc
          subst hc
          simp at hmlen
        refine ⟨hm0, ?_⟩
        have hcp : ssClientPassword inb email =
            ((getClients inb).getD i {}).password := by
          unfold ssClientPassword
          rw [hfind]
        split at henc <;> rename_i hfront
        · injection henc with henc
          subst henc
          rw [← hcp] at hassemble
          rw [if_pos hfront]
          exact uriAssemble_shape _ _ _ _ _ _ _ _ hassemble
        · injection henc with henc
          subst henc
          rw [← hcp] at hassemble
          rw [if_neg hfront]
          exact uriAssemble_shape _ _ _ _ _ _ _ _ hassemble
  · decide

/-- The spec's shadowsocks example scenario. -/
def ssExampleInbound : Inbound :=
  { protocol := "shadowsocks", port := 8388, remark := "",
    settings := .ok (.obj [("password", .str "ABCDEF"),
      ("method", .str "2022-blake3-aes-128-gcm"),
      ("clients", .arr [.obj [("email", .str "bob"), ("password", .str "ghijkl")]])]),
    streamSettings := .ok (.obj [("network", .str "tcp")]),
    clientStats := [] }

/-- The same configuration with one external-proxy entry lacking a dest
field: the encode still succeeds, with the defaulted empty host. -/
def ssFanInbound : Inbound :=
  { protocol := "shadowsocks", port := 8388, remark := "",
    settings := .ok (.obj [("password", .str "ABCDEF"),
      ("method", .str "2022-blake3-aes-128-gcm"),
      ("clients", .arr [.obj [("email", .str "bob"), ("password", .str "ghijkl")]])]),
    streamSettings := .ok (.obj [("network", .str "tcp"),
      ("externalProxy", .arr [
        .obj [("forceTls", .str "same"), ("port", .num 9443), ("remark", .str "p")]])]),
    clientStats := [] }

theorem C4_ss_credential_segment_witness :
    genShadowsocksLink ssExampleInbound "bob" "9.9.9.9" =
      some "ss://MjAyMi1ibGFrZTMtYWVzLTEyOC1nY206QUJDREVGOmdoaWprbA==@9.9.9.9:8388?type=tcp#bob" ∧
    ("2022-blake3-aes-128-gcm" ≠ "" ∧
      ∃ rest,
        "ss://MjAyMi1ibGFrZTMtYWVzLTEyOC1nY206QUJDREVGOmdoaWprbA==@9.9.9.9:8388?type=tcp#bob" =
          "ss://" ++ base64EncodeStr
            (if ("2022-blake3-aes-128-gcm" : String).front = '2' then
              "2022-blake3-aes-128-gcm" ++ ":" ++ "ABCDEF" ++ ":" ++
                ssClientPassword ssExampleInbound "bob"
             else "2022-blake3-aes-128-gcm" ++ ":" ++
                ssClientPassword ssExampleInbound "bob") ++ "@" ++ rest) ∧
    genShadowsocksLink ssFanInbound "bob" "9.9.9.9" =
      some "ss://MjAyMi1ibGFrZTMtYWVzLTEyOC1nY206QUJDREVGOmdoaWprbA==@:9443?security=&type=tcp#bob-p" ∧
    ("2022-blake3-aes-128-gcm" ≠ "" ∧
      ∃ rest,
        "ss://MjAyMi1ibGFrZTMtYWVzLTEyOC1nY206QUJDREVGOmdoaWprbA==@:9443?security=&type=tcp#bob-p" =
          "ss://" ++ base64EncodeStr
            (if ("2022-blake3-aes-128-gcm" : String).front = '2' then
              "2022-blake3-aes-128-gcm" ++ ":" ++ "ABCDEF" ++ ":" ++
                ssClientPassword ssFanInbound "bob"
             else "2022-blake3-aes-128-gcm" ++ ":" ++
                ssClientPassword ssFanInbound "bob") ++ "@" ++ rest) := by
  have hlink : genShadowsocksLink ssExampleInbound "bob" "9.9.9.9" =
      some "ss://MjAyMi1ibGFrZTMtYWVzLTEyOC1nY206QUJDREVGOmdoaWprbA==@9.9.9.9:8388?type=tcp#bob" := by
    decide
  have hlink2 : genShadowsocksLink ssFanInbound "bob" "9.9.9.9" =
      some "ss://MjAyMi1ibGFrZTMtYWVzLTEyOC1nY206QUJDREVGOmdoaWprbA==@:9443?security=&type=tcp#bob-p" := by
    decide
  exact ⟨hlink, C4_ss_credential_segment.1 ssExampleInbound "bob" "9.9.9.9" _
    "2022-blake3-aes-128-gcm" "ABCDEF" rfl (by decide) (by decide) hlink (by decide),
    hlink2, C4_ss_credential_segment.1 ssFanInbound "bob" "9.9.9.9" _
    "2022-blake3-aes-128-gcm" "ABCDEF" rfl (by decide) (by decide) hlink2 (by decide)⟩

/-! ### C3: external-proxy fan-out -/

/-- The query parameters of one fan-out entry: the security parameter is
replaced by the entry's forced security (restored to the raw decoded
security string for "same"), and the TLS detail parameters are stripped
when the forced security is "none". -/
def entryQuery (security : String) (params : Params) (e : JVal) : Params :=
  let ep := e.asObjD
  let newSecurity := (jLookup ep "forceTls").asStringD
  (mapSet params "security" (if newSecurity ≠ "same" then newSecurity else security)).filter
    (fun kv => !(newSecurity == "none" &&
      (kv.1 == "alpn" || kv.1 == "sni" || kv.1 == "fp" || kv.1 == "allowInsecure")))

/-- One fan-out entry's link of the URI-style encoders, from the original
parameter map. -/
def uriEntryLink (scheme userinfo : String) (inb : Inbound) (email security : String)
    (params : Params) (e : JVal) : Option String := do
  let ep := e.asObjD
  let dest := (jLookup ep "dest").asStringD
  let eport ← (jLookup ep "port").asInt?
  let remark ← (jLookup ep "remark").asString?
  pure (urlString (scheme ++ "://" ++ userinfo ++ "@" ++ dest ++ ":" ++ toString eport)
    (entryQuery security params e) (genRemark inb email remark))

theorem uriEntriesLoop_eq_mapM (scheme userinfo : String) (inb : Inbound)
    (email security : String) :
    ∀ (es : List JVal) (q params : Params),
    (∀ v, mapSet q "security" v = mapSet params "security" v) →
    uriEntriesLoop scheme userinfo inb email security q es =
      es.mapM (uriEntryLink scheme userinfo inb email security params) := by
  intro es
  induction es with
  | nil => intro q params hq; rfl
  | cons e rest ih =>
    intro q params hq
    simp only [uriEntriesLoop, uriEntryLink, List.mapM_cons]
    cases heport : (jLookup e.asObjD "port").asInt? with
    | none => simp [heport]
    | some eport =>
      cases hrem : (jLookup e.asObjD "remark").asString? with
      | none => simp [heport, hrem]
      | some rem =>
        have hrec := ih (mapSet params "security"
            (if (jLookup e.asObjD "forceTls").asStringD ≠ "same" then
              (jLookup e.asObjD "forceTls").asStringD else security)) params
          (fun v => by rw [mapSet_mapSet_same])
        simp only [heport, hrem, Option.bind_eq_bind, Option.some_bind, hq,
          entryQuery, hrec, Option.pure_def]

theorem mapM_some_length {α β : Type} (f : α → Option β) :
    ∀ (l : List α) (res : List β), l.mapM f = some res → res.length = l.length := by
  intro l
  induction l with
  | nil =>
    intro res h
    simp only [List.mapM_nil, Option.pure_def, Option.some_inj] at h
    subst h
    rfl
  | cons x xs ih =>
    intro res h
    simp only [List.mapM_cons, Option.bind_eq_bind, Option.bind_eq_some, Option.pure_def,
      Option.some_inj] at h
    obtain ⟨y, hy, ys, hys, h⟩ := h
    subst h
    simp [ih ys hys]

/-- One fan-out entry's vmess object, from the original object. -/
def vmessEntryObj (inb : Inbound) (email : String) (obj : JObj) (ep : JObj)
    (dest : String) (eport : Int) (rem : String) : JObj :=
  let newSecurity := (jLookup ep "forceTls").asStringD
  let newObj := obj.filter (fun kv =>
    !(newSecurity == "none" &&
      (kv.1 == "alpn" || kv.1 == "sni" || kv.1 == "fp" || kv.1 == "allowInsecure")))
  let newObj := mapSet newObj "ps" (.str (genRemark inb email rem))
  let newObj := mapSet newObj "add" (.str dest)
  let newObj := mapSet newObj "port" (.num eport)
  if newSecurity ≠ "same" then mapSet newObj "tls" (.str newSecurity) else newObj

/-- One fan-out entry's vmess link, from the original object. -/
def vmessEntryLink (inb : Inbound) (email : String) (obj : JObj) (e : JVal) :
    Option String := do
  let ep := e.asObjD
  let rem ← (jLookup ep "remark").asString?
  let dest ← (jLookup ep "dest").asString?
  let eport ← (jLookup ep "port").asInt?
  pure (vmessRender (vmessEntryObj inb email obj ep dest eport rem))

theorem vmessEntriesLoop_eq_mapM (inb : Inbound) (email : String) (obj : JObj) :
    ∀ es : List JVal,
    vmessEntriesLoop inb email obj es = es.mapM (vmessEntryLink inb email obj) := by
  intro es
  induction es with
  | nil => rfl
  | cons e rest ih =>
    simp only [vmessEntriesLoop, vmessEntryLink, vmessEntryObj, List.mapM_cons]
    cases hrem : (jLookup e.asObjD "remark").asString? with
    | none => simp [hrem]
    | some rem =>
      cases hdest : (jLookup e.asObjD "dest").asString? with
      | none => simp [hrem, hdest]
      | some dest =>
        cases heport : (jLookup e.asObjD "port").asInt? with
        | none => simp [hrem, hdest, heport]
        | some eport =>
          simp only [hrem, hdest, heport, Option.bind_eq_bind, Option.some_bind,
            Option.pure_def, ih]

theorem entryQuery_strip (security : String) (params : Params) (e : JVal) (k : String)
    (hft : (jLookup e.asObjD "forceTls").asStringD = "none")
    (hk : k = "alpn" ∨ k = "sni" ∨ k = "fp" ∨ k = "allowInsecure") :
    mapGet? (entryQuery security params e) k = none := by
  unfold entryQuery
  dsimp only
  rw [hft]
  apply mapGet?_filter_none
  intro v
  rcases hk with h | h | h | h <;> subst h <;> rfl

theorem entryQuery_security_value (security : String) (params : Params) (e : JVal) :
    mapGet? (entryQuery security params e) "security" =
      some (if (jLookup e.asObjD "forceTls").asStringD ≠ "same" then
        (jLookup e.asObjD "forceTls").asStringD else security) := by
  unfold entryQuery
  dsimp only
  rw [mapGet?_filter_kept, mapGet?_mapSet_self]
  intro v
  simp

theorem vmessEntryObj_add (inb : Inbound) (email : String) (obj ep : JObj)
    (dest : String) (eport : Int) (rem : String) :
    mapGet? (vmessEntryObj inb email obj ep dest eport rem) "add" = some (.str dest) := by
  unfold vmessEntryObj
  dsimp only
  split
  · rw [mapGet?_mapSet_ne _ _ _ _ (by decide), mapGet?_mapSet_ne _ _ _ _ (by decide),
      mapGet?_mapSet_self]
  · rw [mapGet?_mapSet_ne _ _ _ _ (by decide), mapGet?_mapSet_self]

theorem vmessEntryObj_port (inb : Inbound) (email : String) (obj ep : JObj)
    (dest : String) (eport : Int) (rem : String) :
    mapGet? (vmessEntryObj inb email obj ep dest eport rem) "port" = some (.num eport) := by
  unfold vmessEntryObj
  dsimp only
  split
  · rw [mapGet?_mapSet_ne _ _ _ _ (by decide), mapGet?_mapSet_self]
  · rw [mapGet?_mapSet_self]

theorem vmessEntryObj_ps (inb : Inbound) (email : String) (obj ep : JObj)
    (dest : String) (eport : Int) (rem : String) :
    mapGet? (vmessEntryObj inb email obj ep dest eport rem) "ps" =
      some (.str (genRemark inb email rem)) := by
  unfold vmessEntryObj
  dsimp only
  split
  · rw [mapGet?_mapSet_ne _ _ _ _ (by decide), mapGet?_mapSet_ne _ _ _ _ (by decide),
      mapGet?_mapSet_ne _ _ _ _ (by decide), mapGet?_mapSet_self]
  · rw [mapGet?_mapSet_ne _ _ _ _ (by decide), mapGet?_mapSet_ne _ _ _ _ (by decide),
      mapGet?_mapSet_self]

theorem vmessEntryObj_tls_override (inb : Inbound) (email : String) (obj ep : JObj)
    (dest : String) (eport : Int) (rem : String)
    (h : (jLookup ep "forceTls").asStringD ≠ "same") :
    mapGet? (vmessEntryObj inb email obj ep dest eport rem) "tls" =
      some (.str ((jLookup ep "forceTls").asStringD)) := by
  unfold vmessEntryObj
  dsimp only
  rw [if_pos h, mapGet?_mapSet_self]

theorem vmessEntryObj_tls_same (inb : Inbound) (email : String) (obj ep : JObj)
    (dest : String) (eport : Int) (rem : String)
    (h : (jLookup ep "forceTls").asStringD = "same") :
    mapGet? (vmessEntryObj inb email obj ep dest eport rem) "tls" =
      mapGet? obj "tls" := by
  unfold vmessEntryObj
  dsimp only
  rw [if_neg (by simp [h]), mapGet?_mapSet_ne _ _ _ _ (by decide),
    mapGet?_mapSet_ne _ _ _ _ (by decide), mapGet?_mapSet_ne _ _ _ _ (by decide),
    mapGet?_filter_kept]
  intro v
  simp [h]

theorem vmessEntryObj_strip (inb : Inbound) (email : String) (obj ep : JObj)
    (dest : String) (eport : Int) (rem : String) (k : String)
    (hft : (jLookup ep "forceTls").asStringD = "none")
    (hk : k = "alpn" ∨ k = "sni" ∨ k = "fp" ∨ k = "allowInsecure") :
    mapGet? (vmessEntryObj inb email obj ep dest eport rem) k = none := by
  unfold vmessEntryObj
  dsimp only
  rw [if_pos (by simp [hft])]
  have hne : ∀ k2 : String, k2 = "tls" ∨ k2 = "port" ∨ k2 = "add" ∨ k2 = "ps" → k2 ≠ k := by
    intro k2 h2
    rcases h2 with h2 | h2 | h2 | h2 <;> subst h2 <;>
      rcases hk with h | h | h | h <;> subst h <;> decide
  rw [mapGet?_mapSet_ne _ _ _ _ (hne "tls" (by tauto)),
    mapGet?_mapSet_ne _ _ _ _ (hne "port" (by tauto)),
    mapGet?_mapSet_ne _ _ _ _ (hne "add" (by tauto)),
    mapGet?_mapSet_ne _ _ _ _ (hne "ps" (by tauto))]
  apply mapGet?_filter_none
  intro v
  rw [hft]
  rcases hk with h | h | h | h <;> subst h <;> rfl

/-- C3 (amended): with N ≥ 1 external-proxy entries the encoder returns the
newline join of exactly one link per entry, in entry order (here shown for
the cited vless and vmess encoders); each entry's link targets that entry's
dest host (read with a defaulted assertion, so an absent or mistyped dest
gives an empty host) and port and carries a remark built from that entry's
remark suffix; an entry with forceTls "none" has alpn/sni/fp/allowInsecure removed
and its security parameter set to "none"; forceTls "same" restores the raw
decoded security string (not the computed value, which is "none" when the
mode is neither tls nor reality); any other forceTls value replaces the
security value outright. With zero entries exactly one link targeting
(targetAddress, inbound.port) with the empty remark suffix is produced. -/
theorem C3_fanout_per_entry_links :
    (∀ (inb : Inbound) (email address : String) (r : Rng) (i : Nat) (p : Params)
      (es : List JVal),
      inb.protocol = "vless" →
      (getClients inb).findIdx? (fun c => c.email == email) = some i →
      vlessParamsFull (decodeObj inb.streamSettings) (decodeObj inb.settings)
        ((getClients inb).getD i {}).flow r = some p →
      (jLookup (decodeObj inb.streamSettings) "externalProxy").asArrD = es →
      (es ≠ [] →
        genVlessLink inb email address r =
          (es.mapM (uriEntryLink "vless" ((getClients inb).getD i {}).id inb email
            ((jLookup (decodeObj inb.streamSettings) "security").asStringD) p)).map
            joinNL) ∧
      (es = [] →
        genVlessLink inb email address r =
          some (urlString ("vless://" ++ ((getClients inb).getD i {}).id ++ "@" ++
            address ++ ":" ++ toString inb.port) p (genRemark inb email "")))) ∧
    (∀ (inb : Inbound) (email address : String) (i : Nat) (obj : JObj) (es : List JVal),
      inb.protocol = "vmess" →
      vmessObjPre inb address = some obj →
      (getClients inb).findIdx? (fun c => c.email == email) = some i →
      (jLookup (decodeObj inb.streamSettings) "externalProxy").asArrD = es →
      (es ≠ [] →
        genVmessLink inb email address =
          (es.mapM (vmessEntryLink inb email
            (mapSet (mapSet obj "id" (.str ((getClients inb).getD i {}).id)) "scy"
              (.str ((getClients inb).getD i {}).security)))).map joinNL) ∧
      (es = [] →
        genVmessLink inb email address =
          some (vmessRender (mapSet
            (mapSet (mapSet obj "id" (.str ((getClients inb).getD i {}).id)) "scy"
              (.str ((getClients inb).getD i {}).security))
            "ps" (.str (genRemark inb email "")))))) ∧
    (∀ (scheme userinfo : String) (inb : Inbound) (email security : String) (p : Params)
      (es : List JVal) (links : List String),
      es.mapM (uriEntryLink scheme userinfo inb email security p) = some links →
      links.length = es.length) ∧
    (∀ (scheme userinfo : String) (inb : Inbound) (email security : String) (p : Params)
      (e : JVal) (link : String),
      uriEntryLink scheme userinfo inb email security p e = some link →
      ∃ (eport : Int) (rem : String),
        (jLookup e.asObjD "port").asInt? = some eport ∧
        (jLookup e.asObjD "remark").asString? = some rem ∧
        link = urlString (scheme ++ "://" ++ userinfo ++ "@" ++
          (jLookup e.asObjD "dest").asStringD ++ ":" ++
          toString eport) (entryQuery security p e) (genRemark inb email rem)) ∧
    (∀ (security : String) (p : Params) (e : JVal),
      mapGet? (entryQuery security p e) "security" =
        some (if (jLookup e.asObjD "forceTls").asStringD ≠ "same" then
          (jLookup e.asObjD "forceTls").asStringD else security)) ∧
    (∀ (security : String) (p : Params) (e : JVal) (k : String),
      (jLookup e.asObjD "forceTls").asStringD = "none" →
      (k = "alpn" ∨ k = "sni" ∨ k = "fp" ∨ k = "allowInsecure") →
      mapGet? (entryQuery security p e) k = none) ∧
    (∀ (inb : Inbound) (email : String) (obj ep : JObj) (dest : String) (eport : Int)
      (rem : String),
      mapGet? (vmessEntryObj inb email obj ep dest eport rem) "add" = some (.str dest) ∧
      mapGet? (vmessEntryObj inb email obj ep dest eport rem) "port" =
        some (.num eport) ∧
      mapGet? (vmessEntryObj inb email obj ep dest eport rem) "ps" =
        some (.str (genRemark inb email rem)) ∧
      ((jLookup ep "forceTls").asStringD ≠ "same" →
        mapGet? (vmessEntryObj inb email obj ep dest eport rem) "tls" =
          some (.str ((jLookup ep "forceTls").asStringD))) ∧
      ((jLookup ep "forceTls").asStringD = "same" →
        mapGet? (vmessEntryObj inb email obj ep dest eport rem) "tls" =
          mapGet? obj "tls") ∧
      (∀ k, (jLookup ep "forceTls").asStringD = "none" →
        (k = "alpn" ∨ k = "sni" ∨ k = "fp" ∨ k = "allowInsecure") →
        mapGet? (vmessEntryObj inb email obj ep dest eport rem) k = none)) := by
  refine ⟨?_, ?_, ?_, ?_, ?_, ?_, ?_⟩
  · intro inb email address r i p es hp hfind hparams hes
    constructor
    · intro hne
      unfold genVlessLink
      rw [if_neg (by simp [hp])]
      simp only [hfind]
      rw [hparams]
      simp only [Option.bind_eq_bind, Option.some_bind]
      unfold uriAssemble
      dsimp only
      rw [hes, if_pos (List.length_pos.mpr hne),
        uriEntriesLoop_eq_mapM "vless" ((getClients inb).getD i {}).id inb email
          ((jLookup (decodeObj inb.streamSettings) "security").asStringD) es p p
          (fun v => rfl)]
      cases hm : es.mapM (uriEntryLink "vless" ((getClients inb).getD i {}).id inb email
          ((jLookup (decodeObj inb.streamSettings) "security").asStringD) p) with
      | none => simp [hm]
      | some links => simp [hm]
    · intro hnil
      subst hnil
      unfold genVlessLink
      rw [if_neg (by simp [hp])]
      simp only [hfind]
      rw [hparams]
      simp only [Option.bind_eq_bind, Option.some_bind]
      unfold uriAssemble
      dsimp only
      rw [hes]
      simp
  · intro inb email address i obj es hp hpre hfind hes
    constructor
    · intro hne
      unfold genVmessLink
      rw [if_neg (by simp [hp])]
      rw [hpre]
      simp only [Option.bind_eq_bind, Option.some_bind, hfind]
      unfold vmessAssemble
      dsimp only
      rw [hes, if_pos (List.length_pos.mpr hne), vmessEntriesLoop_eq_mapM]
      cases hm : es.mapM (vmessEntryLink inb email
          (mapSet (mapSet obj "id" (.str ((getClients inb).getD i {}).id)) "scy"
            (.str ((getClients inb).getD i {}).security))) with
      | none => simp [hm]
      | some links => simp [hm]
    · intro hnil
      subst hnil
      unfold genVmessLink
      rw [if_neg (by simp [hp])]
      rw [hpre]
      simp only [Option.bind_eq_bind, Option.some_bind, hfind]
      unfold vmessAssemble
      dsimp only
      rw [hes]
      simp
  · intro scheme userinfo inb email security p es links h
    exact mapM_some_length _ es links h
  · intro scheme userinfo inb email security p e link h
    simp only [uriEntryLink, Option.bind_eq_bind, Option.bind_eq_some, Option.pure_def,
      Option.some_inj] at h
    obtain ⟨eport, heport, rem, hrem, h⟩ := h
    exact ⟨eport, rem, heport, hrem, h.symm⟩
  · intro security p e
    exact entryQuery_security_value security p e
  · intro security p e k hft hk
    exact entryQuery_strip security p e k hft hk
  · intro inb email obj ep dest eport rem
    exact ⟨vmessEntryObj_add inb email obj ep dest eport rem,
      vmessEntryObj_port inb email obj ep dest eport rem,
      vmessEntryObj_ps inb email obj ep dest eport rem,
      fun h => vmessEntryObj_tls_override inb email obj ep dest eport rem h,
      fun h => vmessEntryObj_tls_same inb email obj ep dest eport rem h,
      fun k h hk => vmessEntryObj_strip inb email obj ep dest eport rem k h hk⟩

/-- A vless inbound with one external-proxy entry forcing "same" and no
decoded security mode. -/
def c3SameInbound : Inbound :=
  { protocol := "vless", port := 443, remark := "",
    settings := .ok (.obj [("clients", .arr [.obj [("email", .str "e"), ("id", .str "u")]])]),
    streamSettings := .ok (.obj [("network", .str "tcp"),
      ("externalProxy", .arr [.obj [("forceTls", .str "same"), ("dest", .str "d.example"),
        ("port", .num 8443), ("remark", .str "x")]])]),
    clientStats := [] }

/-- The same inbound without external-proxy entries. -/
def c3PlainInbound : Inbound :=
  { protocol := "vless", port := 443, remark := "",
    settings := .ok (.obj [("clients", .arr [.obj [("email", .str "e"), ("id", .str "u")]])]),
    streamSettings := .ok (.obj [("network", .str "tcp")]),
    clientStats := [] }

/-- C3 (counterexample): with no decoded security mode the computed
security value is "none" (the zero-entry link of the same configuration
carries security=none), yet the entry with forceTls "same" emits the raw
decoded security string — here empty, "security=" — so "same" does not
keep the computed security value unchanged. -/
theorem C3_counterexample_same_not_computed :
    genVlessLink c3SameInbound "e" "a" ⟨[]⟩ =
      some "vless://u@d.example:8443?security=&type=tcp#e-x" ∧
    genVlessLink c3PlainInbound "e" "a" ⟨[]⟩ =
      some "vless://u@a:443?security=none&type=tcp#e" := by
  constructor <;> decide

/-- A vless inbound with two external-proxy entries; the second entry has
no dest field, so its link gets the defaulted empty host. -/
def c3FanInbound : Inbound :=
  { protocol := "vless", port := 443, remark := "",
    settings := .ok (.obj [("clients", .arr [.obj [("email", .str "e"), ("id", .str "u")]])]),
    streamSettings := .ok (.obj [("network", .str "tcp"),
      ("externalProxy", .arr [
        .obj [("forceTls", .str "none"), ("dest", .str "d1.example"),
          ("port", .num 1001), ("remark", .str "r1")],
        .obj [("forceTls", .str "tls"),
          ("port", .num 1002), ("remark", .str "r2")]])]),
    clientStats := [] }

theorem C3_fanout_per_entry_links_witness :
    genVlessLink c3FanInbound "e" "a" ⟨[]⟩ =
      (((jLookup (decodeObj c3FanInbound.streamSettings) "externalProxy").asArrD).mapM
        (uriEntryLink "vless" ((getClients c3FanInbound).getD 0 {}).id c3FanInbound "e"
          ((jLookup (decodeObj c3FanInbound.streamSettings) "security").asStringD)
          [("type", "tcp"), ("security", "none")])).map joinNL ∧
    genVlessLink c3FanInbound "e" "a" ⟨[]⟩ =
      some "vless://u@d1.example:1001?security=none&type=tcp#e-r1\nvless://u@:1002?security=tls&type=tcp#e-r2" ∧
    genVlessLink c3PlainInbound "e" "a" ⟨[]⟩ =
      some (urlString ("vless://" ++ ((getClients c3PlainInbound).getD 0 {}).id ++ "@" ++
        "a" ++ ":" ++ toString c3PlainInbound.port) [("type", "tcp"), ("security", "none")]
        (genRemark c3PlainInbound "e" "")) := by
  refine ⟨?_, by decide, ?_⟩
  · exact (C3_fanout_per_entry_links.1 c3FanInbound "e" "a" ⟨[]⟩ 0
      [("type", "tcp"), ("security", "none")] _ rfl (by decide) (by decide) rfl).1
      (by decide)
  · exact (C3_fanout_per_entry_links.1 c3PlainInbound "e" "a" ⟨[]⟩ 0
      [("type", "tcp"), ("security", "none")] [] rfl (by decide) (by decide)
      (by decide)).2 rfl

/-! ### C9: determinism and the reality-only random fields -/

/-- Agreement of two parameter maps outside the randomly drawn
sni/sid/spx parameters. -/
def pAgree (p1 p2 : Params) : Prop :=
  ∀ k, k ≠ "sni" → k ≠ "sid" → k ≠ "spx" → mapGet? p1 k = mapGet? p2 k

theorem pAgree_refl (p : Params) : pAgree p p := fun _ _ _ _ => rfl

theorem pAgree_set {p1 p2 : Params} (h : pAgree p1 p2) (k : String) (v : String) :
    pAgree (mapSet p1 k v) (mapSet p2 k v) := by
  intro k' h1 h2 h3
  by_cases hk : k = k'
  · subst hk
    rw [mapGet?_mapSet_self, mapGet?_mapSet_self]
  · rw [mapGet?_mapSet_ne _ _ _ _ hk, mapGet?_mapSet_ne _ _ _ _ hk]
    exact h k' h1 h2 h3

theorem pAgree_set_rand {p1 p2 : Params} (h : pAgree p1 p2) (k : String)
    (hk : k = "sni" ∨ k = "sid" ∨ k = "spx") (v1 v2 : String) :
    pAgree (mapSet p1 k v1) (mapSet p2 k v2) := by
  intro k' h1 h2 h3
  have hkk : k ≠ k' := by
    rcases hk with h' | h' | h' <;> subst h' <;> [exact fun hc => h1 hc.symm;
      exact fun hc => h2 hc.symm; exact fun hc => h3 hc.symm]
  rw [mapGet?_mapSet_ne _ _ _ _ hkk, mapGet?_mapSet_ne _ _ _ _ hkk]
  exact h k' h1 h2 h3


/-- The random server-name selection step of the reality branch: draw an
index into serverNames and require the chosen element to be a string. -/
def sniStep (realitySetting : JObj) (r : Rng) (params : Params) : Option Params :=
  match searchKey (.obj realitySetting) "serverNames" with
  | some sniValue => do
    let sNames := sniValue.asArrD
    let v ← sNames.get? (r.num 0 sNames.length)
    let s ← v.asString?
    pure (mapSet params "sni" s)
  | none => pure params

/-- The deterministic public-key step of the reality branch. -/
def pbkStep (realitySettings : JVal) (params : Params) : Params :=
  match searchKey realitySettings "publicKey" with
  | some pbkValue => mapSet params "pbk" pbkValue.asStringD
  | none => params

/-- The random short-id selection step of the reality branch. -/
def sidStep (realitySetting : JObj) (r : Rng) (params : Params) : Option Params :=
  match searchKey (.obj realitySetting) "shortIds" with
  | some sidValue => do
    let shortIds := sidValue.asArrD
    let v ← shortIds.get? (r.num 1 shortIds.length)
    let s ← v.asString?
    pure (mapSet params "sid" s)
  | none => pure params

/-- The deterministic fingerprint step of the reality branch. -/
def fpStep (realitySettings : JVal) (params : Params) : Params :=
  match searchKey realitySettings "fingerprint" with
  | some fpValue =>
    match fpValue.asString? with
    | some fp => if fp.length > 0 then mapSet params "fp" fp else params
    | none => params
  | none => params

/-- The deterministic post-quantum key step of the reality branch. -/
def pqvStep (realitySettings : JVal) (params : Params) : Params :=
  match searchKey realitySettings "mldsa65Verify" with
  | some pqvValue =>
    match pqvValue.asString? with
    | some pqv => if pqv.length > 0 then mapSet params "pqv" pqv else params
    | none => params
  | none => params

/-- `realityQueryParams` decomposed into its named steps. -/
theorem realityQueryParams_eq (stream : JObj) (network flow : String)
    (params : Params) (r : Rng) :
    realityQueryParams stream network flow params r =
      (let params := mapSet params "security" "reality"
       let realitySettingO := (jLookup stream "realitySettings").asObj?
       let realitySetting := realitySettingO.getD []
       let realitySettings := (searchKey (.obj realitySetting) "settings").getD .null
       (if realitySettingO.isSome then do
          let a ← sniStep realitySetting r params
          let b ← sidStep realitySetting r (pbkStep realitySettings a)
          pure (mapSet (pqvStep realitySettings (fpStep realitySettings b)) "spx"
            ("/" ++ r.seq 2 15))
        else pure params).bind fun q =>
       pure (if network = "tcp" ∧ flow.length > 0 then mapSet q "flow" flow else q)) := by
  unfold realityQueryParams sniStep pbkStep sidStep fpStep pqvStep
  dsimp only
  by_cases hrs : ((jLookup stream "realitySettings").asObj?).isSome
  · rw [if_pos hrs, if_pos hrs]
    cases searchKey (.obj (((jLookup stream "realitySettings").asObj?).getD []))
        "serverNames" with
    | none =>
      cases searchKey (.obj (((jLookup stream "realitySettings").asObj?).getD []))
          "shortIds" with
      | none =>
        simp only [Option.bind_eq_bind, Option.pure_def, Option.some_bind,
          Option.bind_assoc]
      | some sidValue =>
        simp only [Option.bind_eq_bind, Option.pure_def, Option.some_bind,
          Option.bind_assoc]
    | some sniValue =>
      cases searchKey (.obj (((jLookup stream "realitySettings").asObj?).getD []))
          "shortIds" with
      | none =>
        simp only [Option.bind_eq_bind, Option.pure_def, Option.some_bind,
          Option.bind_assoc]
      | some sidValue =>
        simp only [Option.bind_eq_bind, Option.pure_def, Option.some_bind,
          Option.bind_assoc]
  · rw [if_neg hrs, if_neg hrs]
    simp only [Option.bind_eq_bind, Option.pure_def, Option.some_bind]

theorem sniStep_agree {rs : JObj} {r1 r2 : Rng} {p q a1 a2 : Params}
    (hp : pAgree p q) (h1 : sniStep rs r1 p = some a1)
    (h2 : sniStep rs r2 q = some a2) : pAgree a1 a2 := by
  unfold sniStep at h1 h2
  cases hm : searchKey (.obj rs) "serverNames" with
  | none =>
    rw [hm] at h1 h2
    simp only [Option.pure_def, Option.some_inj] at h1 h2
    subst h1 h2
    exact hp
  | some sniValue =>
    rw [hm] at h1 h2
    simp only [Option.bind_eq_bind, Option.bind_eq_some, Option.pure_def,
      Option.some_inj] at h1 h2
    obtain ⟨v1, hv1, s1, hs1, h1⟩ := h1
    obtain ⟨v2, hv2, s2, hs2, h2⟩ := h2
    subst h1 h2
    exact pAgree_set_rand hp "sni" (Or.inl rfl) s1 s2

theorem sidStep_agree {rs : JObj} {r1 r2 : Rng} {p q a1 a2 : Params}
    (hp : pAgree p q) (h1 : sidStep rs r1 p = some a1)
    (h2 : sidStep rs r2 q = some a2) : pAgree a1 a2 := by
  unfold sidStep at h1 h2
  cases hm : searchKey (.obj rs) "shortIds" with
  | none =>
    rw [hm] at h1 h2
    simp only [Option.pure_def, Option.some_inj] at h1 h2
    subst h1 h2
    exact hp
  | some sidValue =>
    rw [hm] at h1 h2
    simp only [Option.bind_eq_bind, Option.bind_eq_some, Option.pure_def,
      Option.some_inj] at h1 h2
    obtain ⟨v1, hv1, s1, hs1, h1⟩ := h1
    obtain ⟨v2, hv2, s2, hs2, h2⟩ := h2
    subst h1 h2
    exact pAgree_set_rand hp "sid" (Or.inr (Or.inl rfl)) s1 s2

theorem pbkStep_agree (rs : JVal) {p q : Params} (hp : pAgree p q) :
    pAgree (pbkStep rs p) (pbkStep rs q) := by
  unfold pbkStep
  cases searchKey rs "publicKey" with
  | none => exact hp
  | some pbkValue => exact pAgree_set hp "pbk" _

theorem fpStep_agree (rs : JVal) {p q : Params} (hp : pAgree p q) :
    pAgree (fpStep rs p) (fpStep rs q) := by
  unfold fpStep
  cases searchKey rs "fingerprint" with
  | none => exact hp
  | some fpValue =>
    dsimp only
    cases fpValue.asString? with
    | none => exact hp
    | some fp =>
      dsimp only
      by_cases hl : fp.length > 0
      · rw [if_pos hl, if_pos hl]
        exact pAgree_set hp "fp" _
      · rw [if_neg hl, if_neg hl]
        exact hp

theorem pqvStep_agree (rs : JVal) {p q : Params} (hp : pAgree p q) :
    pAgree (pqvStep rs p) (pqvStep rs q) := by
  unfold pqvStep
  cases searchKey rs "mldsa65Verify" with
  | none => exact hp
  | some pqvValue =>
    dsimp only
    cases pqvValue.asString? with
    | none => exact hp
    | some pqv =>
      dsimp only
      by_cases hl : pqv.length > 0
      · rw [if_pos hl, if_pos hl]
        exact pAgree_set hp "pqv" _
      · rw [if_neg hl, if_neg hl]
        exact hp

theorem realityQueryParams_agree (stream : JObj) (network flow : String)
    (params : Params) (r1 r2 : Rng) (p1 p2 : Params)
    (h1 : realityQueryParams stream network flow params r1 = some p1)
    (h2 : realityQueryParams stream network flow params r2 = some p2) :
    pAgree p1 p2 := by
  rw [realityQueryParams_eq] at h1 h2
  dsimp only at h1 h2
  by_cases hrs : ((jLookup stream "realitySettings").asObj?).isSome
  · rw [if_pos hrs] at h1 h2
    simp only [Option.bind_eq_bind, Option.bind_eq_some, Option.pure_def,
      Option.some_inj] at h1 h2
    obtain ⟨q1, ⟨a1, ha1, b1, hb1, hq1⟩, hp1⟩ := h1
    obtain ⟨q2, ⟨a2, ha2, b2, hb2, hq2⟩, hp2⟩ := h2
    subst hq1 hq2 hp1 hp2
    have hAB : pAgree a1 a2 := sniStep_agree (pAgree_refl _) ha1 ha2
    have hBC : pAgree b1 b2 := sidStep_agree (pbkStep_agree _ hAB) hb1 hb2
    have hCD : pAgree
        (mapSet (pqvStep ((searchKey
            (.obj (((jLookup stream "realitySettings").asObj?).getD [])) "settings").getD .null)
          (fpStep ((searchKey
            (.obj (((jLookup stream "realitySettings").asObj?).getD [])) "settings").getD .null)
            b1)) "spx" ("/" ++ r1.seq 2 15))
        (mapSet (pqvStep ((searchKey
            (.obj (((jLookup stream "realitySettings").asObj?).getD [])) "settings").getD .null)
          (fpStep ((searchKey
            (.obj (((jLookup stream "realitySettings").asObj?).getD [])) "settings").getD .null)
            b2)) "spx" ("/" ++ r2.seq 2 15)) :=
      pAgree_set_rand (pqvStep_agree _ (fpStep_agree _ hBC)) "spx"
        (Or.inr (Or.inr rfl)) _ _
    by_cases hfl : network = "tcp" ∧ flow.length > 0
    · rw [if_pos hfl, if_pos hfl]
      exact pAgree_set hCD "flow" flow
    · rw [if_neg hfl, if_neg hfl]
      exact hCD
  · rw [if_neg hrs] at h1 h2
    simp only [Option.pure_def, Option.some_bind, Option.some_inj] at h1 h2
    subst h1 h2
    exact pAgree_refl _

theorem vlessParamsFull_reality_agree (stream settings : JObj) (flow : String)
    (hsec : (jLookup stream "security").asStringD = "reality")
    (r1 r2 : Rng) (p1 p2 : Params)
    (h1 : vlessParamsFull stream settings flow r1 = some p1)
    (h2 : vlessParamsFull stream settings flow r2 = some p2) :
    pAgree p1 p2 := by
  unfold vlessParamsFull at h1 h2
  dsimp only at h1 h2
  rw [hsec] at h1 h2
  have ht : ¬ ("reality" : String) = "tls" := by decide
  have hr : ("reality" : String) = "reality" := rfl
  have hne : ¬ (("reality" : String) ≠ "tls" ∧ ("reality" : String) ≠ "reality") := by
    decide
  simp only [if_neg ht, if_pos hr, if_neg hne, Option.bind_eq_bind,
    Option.bind_eq_some, Option.pure_def, Option.some_inj] at h1 h2
  obtain ⟨n1, hn1, t1, htp1, h1⟩ := h1
  obtain ⟨n2, hn2, t2, htp2, h2⟩ := h2
  rw [hn1] at hn2
  cases hn2
  rw [htp1] at htp2
  cases htp2
  obtain ⟨a1, ha1, h1⟩ := h1
  obtain ⟨a2, ha2, h2⟩ := h2
  subst ha1
  subst ha2
  rw [if_pos trivial] at h1 h2
  simp only [Option.bind_eq_some, Option.some_inj] at h1 h2
  obtain ⟨y1, hy1, hyy1⟩ := h1
  obtain ⟨y2, hy2, hyy2⟩ := h2
  subst hyy1
  subst hyy2
  exact realityQueryParams_agree _ _ _ _ _ _ _ _ hy1 hy2

theorem trojanParamsFull_reality_agree (stream : JObj) (flow : String)
    (hsec : (jLookup stream "security").asStringD = "reality")
    (r1 r2 : Rng) (p1 p2 : Params)
    (h1 : trojanParamsFull stream flow r1 = some p1)
    (h2 : trojanParamsFull stream flow r2 = some p2) :
    pAgree p1 p2 := by
  unfold trojanParamsFull at h1 h2
  dsimp only at h1 h2
  rw [hsec] at h1 h2
  have ht : ¬ ("reality" : String) = "tls" := by decide
  have hr : ("reality" : String) = "reality" := rfl
  have hne : ¬ (("reality" : String) ≠ "tls" ∧ ("reality" : String) ≠ "reality") := by
    decide
  simp only [if_neg ht, if_pos hr, if_neg hne, Option.bind_eq_bind,
    Option.bind_eq_some, Option.pure_def, Option.some_inj] at h1 h2
  obtain ⟨n1, hn1, t1, htp1, h1⟩ := h1
  obtain ⟨n2, hn2, t2, htp2, h2⟩ := h2
  rw [hn1] at hn2
  cases hn2
  rw [htp1] at htp2
  cases htp2
  obtain ⟨a1, ha1, h1⟩ := h1
  obtain ⟨a2, ha2, h2⟩ := h2
  subst ha1
  subst ha2
  rw [if_pos trivial] at h1 h2
  simp only [Option.bind_eq_some, Option.some_inj] at h1 h2
  obtain ⟨y1, hy1, hyy1⟩ := h1
  obtain ⟨y2, hy2, hyy2⟩ := h2
  subst hyy1
  subst hyy2
  exact realityQueryParams_agree _ _ _ _ _ _ _ _ hy1 hy2

theorem vlessParamsFull_rng_indep (stream settings : JObj)
    (h : (jLookup stream "security").asStringD ≠ "reality") (r1 r2 : Rng)
    (flow : String) :
    vlessParamsFull stream settings flow r1 = vlessParamsFull stream settings flow r2 := by
  unfold vlessParamsFull
  dsimp only
  simp only [if_neg h]

theorem trojanParamsFull_rng_indep (stream : JObj)
    (h : (jLookup stream "security").asStringD ≠ "reality") (r1 r2 : Rng)
    (flow : String) :
    trojanParamsFull stream flow r1 = trojanParamsFull stream flow r2 := by
  unfold trojanParamsFull
  dsimp only
  simp only [if_neg h]

theorem genVlessLink_rng_indep (inb : Inbound) (email address : String)
    (h : (jLookup (decodeObj inb.streamSettings) "security").asStringD ≠ "reality")
    (r1 r2 : Rng) :
    genVlessLink inb email address r1 = genVlessLink inb email address r2 := by
  unfold genVlessLink
  dsimp only
  simp only [vlessParamsFull_rng_indep (decodeObj inb.streamSettings)
    (decodeObj inb.settings) h r1 r2]

theorem genTrojanLink_rng_indep (inb : Inbound) (email address : String)
    (h : (jLookup (decodeObj inb.streamSettings) "security").asStringD ≠ "reality")
    (r1 r2 : Rng) :
    genTrojanLink inb email address r1 = genTrojanLink inb email address r2 := by
  unfold genTrojanLink
  dsimp only
  simp only [trojanParamsFull_rng_indep (decodeObj inb.streamSettings) h r1 r2]

theorem GetClientLink_rng_indep (inb : Inbound) (email address : String)
    (h : (jLookup (decodeObj inb.streamSettings) "security").asStringD ≠ "reality")
    (r1 r2 : Rng) :
    GetClientLink inb email address r1 = GetClientLink inb email address r2 := by
  unfold GetClientLink
  split
  · rfl
  · exact genVlessLink_rng_indep inb email address h r1 r2
  · exact genTrojanLink_rng_indep inb email address h r1 r2
  · rfl
  · rfl

theorem genVlessLink_reality_decomp (inb : Inbound) (email address : String)
    (r : Rng) (s : String)
    (hp : inb.protocol = "vless")
    (h : genVlessLink inb email address r = some s) :
    ((getClients inb).findIdx? (fun c => c.email == email) = none ∧ s = "") ∨
    ∃ i p, (getClients inb).findIdx? (fun c => c.email == email) = some i ∧
      vlessParamsFull (decodeObj inb.streamSettings) (decodeObj inb.settings)
        ((getClients inb).getD i {}).flow r = some p ∧
      uriAssemble "vless" ((getClients inb).getD i {}).id inb email address
        ((jLookup (decodeObj inb.streamSettings) "security").asStringD) p = some s := by
  unfold genVlessLink at h
  have hnp : ¬ inb.protocol ≠ "vless" := fun hc => hc hp
  rw [if_neg hnp] at h
  dsimp only at h
  cases hidx : (getClients inb).findIdx? (fun c => c.email == email) with
  | none =>
    rw [hidx] at h
    simp only [Option.some_inj] at h
    exact Or.inl ⟨rfl, h.symm⟩
  | some i =>
    rw [hidx] at h
    dsimp only at h
    simp only [Option.bind_eq_bind, Option.bind_eq_some] at h
    obtain ⟨p, hp1, hp2⟩ := h
    exact Or.inr ⟨i, p, rfl, hp1, hp2⟩

theorem genTrojanLink_reality_decomp (inb : Inbound) (email address : String)
    (r : Rng) (s : String)
    (hp : inb.protocol = "trojan")
    (h : genTrojanLink inb email address r = some s) :
    ((getClients inb).findIdx? (fun c => c.email == email) = none ∧ s = "") ∨
    ∃ i p, (getClients inb).findIdx? (fun c => c.email == email) = some i ∧
      trojanParamsFull (decodeObj inb.streamSettings)
        ((getClients inb).getD i {}).flow r = some p ∧
      uriAssemble "trojan" ((getClients inb).getD i {}).password inb email address
        ((jLookup (decodeObj inb.streamSettings) "security").asStringD) p = some s := by
  unfold genTrojanLink at h
  have hnp : ¬ inb.protocol ≠ "trojan" := fun hc => hc hp
  rw [if_neg hnp] at h
  dsimp only at h
  cases hidx : (getClients inb).findIdx? (fun c => c.email == email) with
  | none =>
    rw [hidx] at h
    simp only [Option.some_inj] at h
    exact Or.inl ⟨rfl, h.symm⟩
  | some i =>
    rw [hidx] at h
    dsimp only at h
    simp only [Option.bind_eq_bind, Option.bind_eq_some] at h
    obtain ⟨p, hp1, hp2⟩ := h
    exact Or.inr ⟨i, p, rfl, hp1, hp2⟩

theorem GetClientLink_vless (inb : Inbound) (hp : inb.protocol = "vless")
    (email address : String) (r : Rng) :
    GetClientLink inb email address r = genVlessLink inb email address r := by
  unfold GetClientLink
  rw [hp]
  rfl

theorem GetClientLink_trojan (inb : Inbound) (hp : inb.protocol = "trojan")
    (email address : String) (r : Rng) :
    GetClientLink inb email address r = genTrojanLink inb email address r := by
  unfold GetClientLink
  rw [hp]
  rfl

/-- C9: the utility encoders are deterministic pure functions of their
inputs and the explicit random source. (a) Whenever the decoded stream
security mode is not "reality", the random source is never consulted: two
GetClientLink calls with identical inbound, email, and address return
identical results for any two random sources. (b) For a "reality" vless or
trojan inbound, two successful calls factor through the same client index
and the same assembly, and their query-parameter maps can differ only at
the randomly drawn "sni", "sid", and "spx" keys: every other key is mapped
identically. -/
theorem C9_encode_deterministic_reality_variance :
    (∀ (inb : Inbound) (email address : String) (r1 r2 : Rng),
      (jLookup (decodeObj inb.streamSettings) "security").asStringD ≠ "reality" →
      GetClientLink inb email address r1 = GetClientLink inb email address r2)
    ∧ (∀ (inb : Inbound) (email address : String) (r1 r2 : Rng) (s1 s2 : String),
      inb.protocol = "vless" →
      (jLookup (decodeObj inb.streamSettings) "security").asStringD = "reality" →
      GetClientLink inb email address r1 = some s1 →
      GetClientLink inb email address r2 = some s2 →
      (s1 = "" ∧ s2 = "") ∨
      ∃ i p1 p2,
        (getClients inb).findIdx? (fun c => c.email == email) = some i ∧
        vlessParamsFull (decodeObj inb.streamSettings) (decodeObj inb.settings)
          ((getClients inb).getD i {}).flow r1 = some p1 ∧
        vlessParamsFull (decodeObj inb.streamSettings) (decodeObj inb.settings)
          ((getClients inb).getD i {}).flow r2 = some p2 ∧
        pAgree p1 p2 ∧
        uriAssemble "vless" ((getClients inb).getD i {}).id inb email address
          ((jLookup (decodeObj inb.streamSettings) "security").asStringD) p1 = some s1 ∧
        uriAssemble "vless" ((getClients inb).getD i {}).id inb email address
          ((jLookup (decodeObj inb.streamSettings) "security").asStringD) p2 = some s2)
    ∧ (∀ (inb : Inbound) (email address : String) (r1 r2 : Rng) (s1 s2 : String),
      inb.protocol = "trojan" →
      (jLookup (decodeObj inb.streamSettings) "security").asStringD = "reality" →
      GetClientLink inb email address r1 = some s1 →
      GetClientLink inb email address r2 = some s2 →
      (s1 = "" ∧ s2 = "") ∨
      ∃ i p1 p2,
        (getClients inb).findIdx? (fun c => c.email == email) = some i ∧
        trojanParamsFull (decodeObj inb.streamSettings)
          ((getClients inb).getD i {}).flow r1 = some p1 ∧
        trojanParamsFull (decodeObj inb.streamSettings)
          ((getClients inb).getD i {}).flow r2 = some p2 ∧
        pAgree p1 p2 ∧
        uriAssemble "trojan" ((getClients inb).getD i {}).password inb email address
          ((jLookup (decodeObj inb.streamSettings) "security").asStringD) p1 = some s1 ∧
        uriAssemble "trojan" ((getClients inb).getD i {}).password inb email address
          ((jLookup (decodeObj inb.streamSettings) "security").asStringD) p2 = some s2) := by
  refine ⟨fun inb email address r1 r2 h =>
    GetClientLink_rng_indep inb email address h r1 r2, ?_, ?_⟩
  · intro inb email address r1 r2 s1 s2 hp hsec h1 h2
    rw [GetClientLink_vless inb hp] at h1 h2
    rcases genVlessLink_reality_decomp inb email address r1 s1 hp h1 with
      ⟨hn1, he1⟩ | ⟨i1, p1, hi1, hvp1, hu1⟩
    · rcases genVlessLink_reality_decomp inb email address r2 s2 hp h2 with
        ⟨hn2, he2⟩ | ⟨i2, p2, hi2, hvp2, hu2⟩
      · exact Or.inl ⟨he1, he2⟩
      · rw [hn1] at hi2
        exact absurd hi2 (by simp)
    · rcases genVlessLink_reality_decomp inb email address r2 s2 hp h2 with
        ⟨hn2, he2⟩ | ⟨i2, p2, hi2, hvp2, hu2⟩
      · rw [hn2] at hi1
        exact absurd hi1 (by simp)
      · rw [hi1] at hi2
        cases hi2
        exact Or.inr ⟨i1, p1, p2, hi1, hvp1, hvp2,
          vlessParamsFull_reality_agree _ _ _ hsec r1 r2 p1 p2 hvp1 hvp2, hu1, hu2⟩
  · intro inb email address r1 r2 s1 s2 hp hsec h1 h2
    rw [GetClientLink_trojan inb hp] at h1 h2
    rcases genTrojanLink_reality_decomp inb email address r1 s1 hp h1 with
      ⟨hn1, he1⟩ | ⟨i1, p1, hi1, hvp1, hu1⟩
    · rcases genTrojanLink_reality_decomp inb email address r2 s2 hp h2 with
        ⟨hn2, he2⟩ | ⟨i2, p2, hi2, hvp2, hu2⟩
      · exact Or.inl ⟨he1, he2⟩
      · rw [hn1] at hi2
        exact absurd hi2 (by simp)
    · rcases genTrojanLink_reality_decomp inb email address r2 s2 hp h2 with
        ⟨hn2, he2⟩ | ⟨i2, p2, hi2, hvp2, hu2⟩
      · rw [hn2] at hi1
        exact absurd hi1 (by simp)
      · rw [hi1] at hi2
        cases hi2
        exact Or.inr ⟨i1, p1, p2, hi1, hvp1, hvp2,
          trojanParamsFull_reality_agree _ _ hsec r1 r2 p1 p2 hvp1 hvp2, hu1, hu2⟩

/-- A plain (non-reality) vless inbound used to instantiate determinism. -/
def c9PlainInbound : Inbound :=
  { protocol := "vless", port := 443, remark := "r",
    settings := .ok (.obj [("clients", .arr [.obj [("email", .str "e"), ("id", .str "u")]])]),
    streamSettings := .ok (.obj [("network", .str "tcp"), ("security", .str "none")]),
    clientStats := [] }

/-- A reality vless inbound with two server names and two short ids, so
that distinct random sources actually pick distinct sni/sid/spx values; it
fans out over one external-proxy entry that lacks a dest field, so both
links carry the defaulted empty host. -/
def c9ReInbound : Inbound :=
  { protocol := "vless", port := 443, remark := "R",
    settings := .ok (.obj [("clients", .arr [.obj [("email", .str "e"), ("id", .str "u")]])]),
    streamSettings := .ok (.obj [("network", .str "tcp"), ("security", .str "reality"),
      ("realitySettings", .obj [
        ("serverNames", .arr [.str "sn0", .str "sn1"]),
        ("shortIds", .arr [.str "id0", .str "id1"]),
        ("settings", .obj [("publicKey", .str "PBK"), ("fingerprint", .str "chrome")])]),
      ("externalProxy", .arr [
        .obj [("forceTls", .str "same"), ("port", .num 9443), ("remark", .str "p")]])]),
    clientStats := [] }

theorem C9_encode_deterministic_reality_variance_witness :
    (GetClientLink c9PlainInbound "e" "h" ⟨[0]⟩ = GetClientLink c9PlainInbound "e" "h" ⟨[5]⟩)
    ∧ ((("vless://u@:9443?fp=chrome&pbk=PBK&security=reality&sid=id1&sni=sn0&spx=%2Fhijklmnopqrstuv&type=tcp#R-e-p" = "" ∧
        "vless://u@:9443?fp=chrome&pbk=PBK&security=reality&sid=id0&sni=sn1&spx=%2Fjklmnopqrstuvwx&type=tcp#R-e-p" = "")) ∨
      ∃ i p1 p2,
        (getClients c9ReInbound).findIdx? (fun c => c.email == "e") = some i ∧
        vlessParamsFull (decodeObj c9ReInbound.streamSettings) (decodeObj c9ReInbound.settings)
          ((getClients c9ReInbound).getD i {}).flow ⟨[0, 1, 7]⟩ = some p1 ∧
        vlessParamsFull (decodeObj c9ReInbound.streamSettings) (decodeObj c9ReInbound.settings)
          ((getClients c9ReInbound).getD i {}).flow ⟨[1, 0, 9]⟩ = some p2 ∧
        pAgree p1 p2 ∧
        uriAssemble "vless" ((getClients c9ReInbound).getD i {}).id c9ReInbound "e" "h"
          ((jLookup (decodeObj c9ReInbound.streamSettings) "security").asStringD) p1 =
          some "vless://u@:9443?fp=chrome&pbk=PBK&security=reality&sid=id1&sni=sn0&spx=%2Fhijklmnopqrstuv&type=tcp#R-e-p" ∧
        uriAssemble "vless" ((getClients c9ReInbound).getD i {}).id c9ReInbound "e" "h"
          ((jLookup (decodeObj c9ReInbound.streamSettings) "security").asStringD) p2 =
          some "vless://u@:9443?fp=chrome&pbk=PBK&security=reality&sid=id0&sni=sn1&spx=%2Fjklmnopqrstuvwx&type=tcp#R-e-p") :=
  ⟨C9_encode_deterministic_reality_variance.1 c9PlainInbound "e" "h" ⟨[0]⟩ ⟨[5]⟩
    (by decide),
   C9_encode_deterministic_reality_variance.2.1 c9ReInbound "e" "h" ⟨[0, 1, 7]⟩
    ⟨[1, 0, 9]⟩ _ _ rfl (by decide) (by decide) (by decide)⟩

/-! ### C10: the two parallel implementations -/

theorem asStringD_of_asString? {v : JVal} {s : String} (h : v.asString? = some s) :
    v.asStringD = s := by
  unfold JVal.asStringD
  rw [h]
  rfl

theorem findIdx?_map_congr {α β γ : Type} (p : β → Bool) (q : γ → Bool)
    (f : α → β) (g : α → γ) :
    ∀ (xs : List α) (i : Nat), (∀ x ∈ xs, p (f x) = q (g x)) →
      List.findIdx? p (xs.map f) i = List.findIdx? q (xs.map g) i := by
  intro xs
  induction xs with
  | nil => intro i _; rfl
  | cons x xs ih =>
    intro i h
    simp only [List.map_cons, List.findIdx?_cons]
    rw [h x (List.mem_cons_self x xs)]
    by_cases hq : q (g x) = true
    · rw [if_pos hq, if_pos hq]
    · rw [if_neg hq, if_neg hq]
      exact ih (i + 1) (fun y hy => h y (List.mem_cons_of_mem x hy))

theorem getD_map_default {α β : Type} (f : α → β) (d : α) :
    ∀ (xs : List α) (i : Nat), (xs.map f).getD i (f d) = f (xs.getD i d) := by
  intro xs
  induction xs with
  | nil => intro i; rfl
  | cons x xs ih =>
    intro i
    cases i with
    | zero => rfl
    | succ n => exact ih n

theorem findIdx_clients_agree (inb : Inbound) (email : String)
    (hWT : ∀ x ∈ (jLookup (decodeObj inb.settings) "clients").asArrD,
      ∃ em, jLookup x.asObjD "email" = .str em) :
    (getClients inb).findIdx? (fun c => c.email == email) =
      Ctrl.findClientIdx (Ctrl.clientsOf (decodeObj inb.settings)) email := by
  unfold getClients Ctrl.findClientIdx Ctrl.clientsOf
  cases hs : inb.settings with
  | error e => rfl
  | ok v =>
    cases v with
    | null => rfl
    | bool b => rfl
    | num n => rfl
    | str s => rfl
    | arr xs => rfl
    | obj fields =>
      rw [hs] at hWT
      simp only [decodeObj] at hWT ⊢
      cases hv : jLookup fields "clients" with
      | null => rfl
      | bool b => rfl
      | num n => rfl
      | str s => rfl
      | obj f => rfl
      | arr xs =>
        rw [hv] at hWT
        refine findIdx?_map_congr _ _ _ _ xs 0 ?_
        intro x hx
        obtain ⟨em, hem⟩ := hWT x hx
        have hd : (decodeClient x).email = (jLookup x.asObjD "email").asStringD := rfl
        rw [hd, hem]
        rfl

theorem clients_getD_fields (inb : Inbound) (i : Nat) :
    ((getClients inb).getD i {}).id =
      (jLookup ((Ctrl.clientsOf (decodeObj inb.settings)).getD i []) "id").asStringD
    ∧ ((getClients inb).getD i {}).security =
      (jLookup ((Ctrl.clientsOf (decodeObj inb.settings)).getD i []) "security").asStringD := by
  unfold getClients Ctrl.clientsOf
  cases hs : inb.settings with
  | error e => exact ⟨rfl, rfl⟩
  | ok v =>
    cases v with
    | null => exact ⟨rfl, rfl⟩
    | bool b => exact ⟨rfl, rfl⟩
    | num n => exact ⟨rfl, rfl⟩
    | str s => exact ⟨rfl, rfl⟩
    | arr xs => exact ⟨rfl, rfl⟩
    | obj fields =>
      simp only [decodeObj]
      cases hv : jLookup fields "clients" with
      | null => exact ⟨rfl, rfl⟩
      | bool b => exact ⟨rfl, rfl⟩
      | num n => exact ⟨rfl, rfl⟩
      | str s => exact ⟨rfl, rfl⟩
      | obj f => exact ⟨rfl, rfl⟩
      | arr xs =>
        have h1 : (xs.map decodeClient).getD i {} = decodeClient (xs.getD i .null) :=
          getD_map_default decodeClient .null xs i
        have h2 : ((JVal.arr xs).asArrD.map JVal.asObjD).getD i [] =
            (xs.getD i .null).asObjD :=
          getD_map_default JVal.asObjD .null xs i
        rw [h1, h2]
        exact ⟨rfl, rfl⟩

theorem vmessEntriesLoop_agree (inb : Inbound) (email : String)
    (hremark : ∀ extra, genRemark inb email extra =
      Ctrl.genRemark inb email extra inb.clientStats false 0) (obj : JObj) :
    ∀ (es : List JVal) (ls1 ls2 : List String),
      vmessEntriesLoop inb email obj es = some ls1 →
      Ctrl.vmessEntriesLoop inb email obj es = some ls2 → ls1 = ls2 := by
  intro es
  induction es with
  | nil =>
    intro ls1 ls2 h1 h2
    unfold vmessEntriesLoop at h1
    unfold Ctrl.vmessEntriesLoop at h2
    simp only [Option.some_inj] at h1 h2
    rw [← h1, ← h2]
  | cons e rest ih =>
    intro ls1 ls2 h1 h2
    unfold vmessEntriesLoop at h1
    unfold Ctrl.vmessEntriesLoop at h2
    dsimp only at h1 h2
    simp only [Option.bind_eq_bind, Option.bind_eq_some, Option.pure_def,
      Option.some_inj] at h1 h2
    obtain ⟨rem, hrem, dest1, hdest1, ep1, hep1, tl1, htl1, hcons1⟩ := h1
    obtain ⟨dest2, hdest2, ep2, hep2, tl2, htl2, hcons2⟩ := h2
    rw [hdest1] at hdest2
    cases hdest2
    rw [hep1] at hep2
    cases hep2
    have htl : tl1 = tl2 := ih tl1 tl2 htl1 htl2
    subst htl
    rw [← hcons1, ← hcons2]
    rw [asStringD_of_asString? hrem, ← hremark rem]

theorem vmessAssemble_agree (inb : Inbound) (email : String)
    (hremark : ∀ extra, genRemark inb email extra =
      Ctrl.genRemark inb email extra inb.clientStats false 0)
    (obj : JObj) (s t : String)
    (h1 : vmessAssemble inb email obj = some s)
    (h2 : Ctrl.vmessAssemble inb email obj = some t) : s = t := by
  unfold vmessAssemble at h1
  unfold Ctrl.vmessAssemble at h2
  dsimp only at h1 h2
  by_cases hep :
      ((jLookup (decodeObj inb.streamSettings) "externalProxy").asArrD).length > 0
  · rw [if_pos hep] at h1 h2
    simp only [Option.bind_eq_bind, Option.bind_eq_some, Option.pure_def,
      Option.some_inj] at h1 h2
    obtain ⟨ls1, hl1, hs⟩ := h1
    obtain ⟨ls2, hl2, ht⟩ := h2
    rw [← hs, ← ht, vmessEntriesLoop_agree inb email hremark obj _ ls1 ls2 hl1 hl2]
  · rw [if_neg hep] at h1 h2
    simp only [Option.pure_def, Option.some_inj] at h1 h2
    rw [← h1, ← h2, hremark ""]

theorem GetClientLink_vmess (inb : Inbound) (hp : inb.protocol = "vmess")
    (email address : String) (r : Rng) :
    GetClientLink inb email address r = genVmessLink inb email address := by
  unfold GetClientLink
  rw [hp]
  rfl

theorem Ctrl_getLink_vmess (inb : Inbound) (hp : inb.protocol = "vmess")
    (address email : String) (r : Rng) :
    Ctrl.getLink inb address email r = Ctrl.genVmessLink inb address email := by
  unfold Ctrl.getLink
  rw [hp]
  rfl

/-- A vmess inbound with a non-empty remark and client email, on which the
two implementations emit different remark strings ("R-e" vs "R e"). -/
def c10Inbound : Inbound :=
  { protocol := "vmess", port := 10000, remark := "R",
    settings := .ok (.obj [("clients", .arr [.obj [("email", .str "e"), ("id", .str "u"),
      ("security", .str "auto")]])]),
    streamSettings := .ok (.obj [("network", .str "tcp")]),
    clientStats := [] }

/-- C10 counterexample: on the same inbound, email, and address the utility
encoder and the controller encoder return different links — the utility
remark builder joins with hyphens ("R-e"), the controller one with spaces
("R e"); the difference survives into the base64 payload. -/
theorem C10_counterexample_remark_divergence :
    GetClientLink c10Inbound "e" "h.example" ⟨[]⟩ ≠
      Ctrl.getLink c10Inbound "h.example" "e" ⟨[]⟩ := by
  decide

/-- C10 (amended): the two vmess encoders agree whenever every configured
client's email field is a string (so the typed and the generic client
lookups select the same client) and the two remark builders coincide on the
inbound (as they do with an empty inbound remark and empty email, since the
controller's extra traffic/expiry decorations are disabled on this path):
whatever both calls return, it is the same string — independently of either
random source, which the vmess encoders never consult. The transport and
security sections are literally shared (vmessObjPre); the divergences are
confined to the remark builder and the client-field access. -/
theorem C10_refinement_vmess_amended (inb : Inbound) (email address : String)
    (r1 r2 : Rng) (s t : String)
    (hp : inb.protocol = "vmess")
    (hWT : ∀ x ∈ (jLookup (decodeObj inb.settings) "clients").asArrD,
      ∃ em, jLookup x.asObjD "email" = .str em)
    (hremark : ∀ extra, genRemark inb email extra =
      Ctrl.genRemark inb email extra inb.clientStats false 0)
    (h1 : GetClientLink inb email address r1 = some s)
    (h2 : Ctrl.getLink inb address email r2 = some t) : s = t := by
  rw [GetClientLink_vmess inb hp email address r1] at h1
  rw [Ctrl_getLink_vmess inb hp address email r2] at h2
  unfold genVmessLink at h1
  unfold Ctrl.genVmessLink at h2
  have hnp : ¬ inb.protocol ≠ "vmess" := fun hc => hc hp
  rw [if_neg hnp] at h1 h2
  simp only [Option.bind_eq_bind, Option.bind_eq_some] at h1 h2
  obtain ⟨o1, ho1, h1⟩ := h1
  obtain ⟨o2, ho2, h2⟩ := h2
  rw [ho1] at ho2
  cases ho2
  rw [← findIdx_clients_agree inb email hWT] at h2
  cases hidx : (getClients inb).findIdx? (fun c => c.email == email) with
  | none =>
    rw [hidx] at h1 h2
    simp only [Option.some_inj] at h1 h2
    rw [← h1, ← h2]
  | some i =>
    rw [hidx] at h1 h2
    dsimp only at h1 h2
    rw [← (clients_getD_fields inb i).1, ← (clients_getD_fields inb i).2] at h2
    exact vmessAssemble_agree inb email hremark _ s t h1 h2

/-- A vmess inbound with empty remark and empty client email, on which the
two remark builders coincide and both encoders emit the same link. -/
def c10WInbound : Inbound :=
  { protocol := "vmess", port := 10000, remark := "",
    settings := .ok (.obj [("clients", .arr [.obj [("email", .str ""), ("id", .str "u"),
      ("security", .str "auto")]])]),
    streamSettings := .ok (.obj [("network", .str "tcp")]),
    clientStats := [] }

theorem c10W_remark_agree (extra : String) :
    genRemark c10WInbound "" extra =
      Ctrl.genRemark c10WInbound "" extra c10WInbound.clientStats false 0 := by
  by_cases h : extra.length > 0
  · simp [genRemark, Ctrl.genRemark, c10WInbound, h, joinSep]
  · simp [genRemark, Ctrl.genRemark, c10WInbound, h, joinSep]

theorem C10_refinement_vmess_amended_witness :
    GetClientLink c10WInbound "" "h" ⟨[]⟩ =
      some "vmess://ewogICJhZGQiOiAiaCIsCiAgImlkIjogInUiLAogICJuZXQiOiAidGNwIiwKICAicG9ydCI6IDEwMDAwLAogICJwcyI6ICIiLAogICJzY3kiOiAiYXV0byIsCiAgInRscyI6ICIiLAogICJ0eXBlIjogIiIsCiAgInYiOiAiMiIKfQ==" ∧
    Ctrl.getLink c10WInbound "h" "" ⟨[]⟩ =
      some "vmess://ewogICJhZGQiOiAiaCIsCiAgImlkIjogInUiLAogICJuZXQiOiAidGNwIiwKICAicG9ydCI6IDEwMDAwLAogICJwcyI6ICIiLAogICJzY3kiOiAiYXV0byIsCiAgInRscyI6ICIiLAogICJ0eXBlIjogIiIsCiAgInYiOiAiMiIKfQ==" ∧
    ("vmess://ewogICJhZGQiOiAiaCIsCiAgImlkIjogInUiLAogICJuZXQiOiAidGNwIiwKICAicG9ydCI6IDEwMDAwLAogICJwcyI6ICIiLAogICJzY3kiOiAiYXV0byIsCiAgInRscyI6ICIiLAogICJ0eXBlIjogIiIsCiAgInYiOiAiMiIKfQ==" : String) =
      "vmess://ewogICJhZGQiOiAiaCIsCiAgImlkIjogInUiLAogICJuZXQiOiAidGNwIiwKICAicG9ydCI6IDEwMDAwLAogICJwcyI6ICIiLAogICJzY3kiOiAiYXV0byIsCiAgInRscyI6ICIiLAogICJ0eXBlIjogIiIsCiAgInYiOiAiMiIKfQ==" :=
  ⟨by decide, by decide,
   C10_refinement_vmess_amended c10WInbound "" "h" ⟨[]⟩ ⟨[]⟩ _ _ rfl
     (fun x hx => by
       have hx' : x ∈ [JVal.obj [("email", JVal.str ""), ("id", JVal.str "u"),
           ("security", JVal.str "auto")]] := hx
       rw [List.mem_singleton] at hx'
       subst hx'
       exact ⟨"", rfl⟩)
     c10W_remark_agree (by decide) (by decide)⟩
